import Mathlib

/-!
# Verification of the HomeTypeMap frontend engine

A shallow embedding of the viewport-driven spatial synchronization and
floor-plan pin-placement engine of the HomeTypeMap React frontend
(`src/App.tsx`, `src/AdminApp.tsx`, `src/api.ts`, `src/types.ts`).

Conventions of the embedding:
* JavaScript numbers are modelled as `ℚ` (exact rationals); portfolio /
  complex / unit-type identifiers, which are integral in this code base,
  are modelled as `ℕ`.
* `T | null | undefined` fields are modelled as `Option T`.  JavaScript
  truthiness tests on string fields (`if (card.after_image_url) ...`)
  are modelled by `truthyStr`, which is false exactly on `none` and on
  the empty string.  The nullish-coalescing operator `??` is
  `Option.getD`, which falls back only on `none`.
* React state updates are modelled as pure state-transition functions.
  Asynchronous fetches are split into an *issue* step and a *resolve*
  (or *fail*) step.  The boolean `cancelled` closure flag that every
  data-fetch `useEffect` captures is represented by a generation
  counter: each re-run of an effect increments the generation and
  records the (single) live request; a response whose generation is no
  longer the live one is exactly a response whose `cancelled` flag was
  set by the effect cleanup, and it is discarded.
-/

namespace HomeTypeMap

/-- JavaScript truthiness of an optional string field:
`undefined`/`null` and `""` are falsy. -/
def truthyStr : Option String → Bool
  | none => false
  | some s => !(s == "")

/-! ## Data model (from `types.ts`) -/

/-- `ClusterPin` from `types.ts`. -/
structure ClusterPin where
  cluster_key : String
  center_latitude : ℚ
  center_longitude : ℚ
  count : ℕ
deriving DecidableEq

/-- `ComplexPin` from `types.ts`. -/
structure ComplexPin where
  complex_id : ℕ
  name : String
  latitude : ℚ
  longitude : ℚ
  portfolio_count : ℕ
  distance_m : Option ℚ
deriving DecidableEq

/-- `MapPinsResponse` from `types.ts`. -/
structure MapPinsResponse where
  clusters : List ClusterPin
  complexes : List ComplexPin
deriving DecidableEq

/-- `UnitTypeChip` from `types.ts`. -/
structure UnitTypeChip where
  unit_type_id : ℕ
  exclusive_area_m2 : ℚ
  type_code : Option String
  structure_keyword : Option String
  floor_plan_image_url : Option String
  portfolio_count : ℕ
deriving DecidableEq

/-- `ComplexDetailResponse` from `types.ts` (fields the app reads). -/
structure ComplexDetailResponse where
  complex_id : ℕ
  name : String
  address : String
  unit_types : List UnitTypeChip
deriving DecidableEq

/-- `FloorPlanPin` from `types.ts`: an explicit, persisted floor-plan
pin carried by a portfolio card. -/
structure FloorPlanPin where
  pin_id : String
  x : ℚ
  y : ℚ
  title : Option String
  before_image_urls : List String
  after_image_urls : List String
deriving DecidableEq

/-- `PortfolioCard` from `types.ts`, restricted to the fields the
engine reads (`App.tsx` additionally reads the per-side coordinate
overrides `floor_plan_before_x/y` and `floor_plan_after_x/y`). -/
structure PortfolioCard where
  portfolio_id : ℕ
  title : String
  before_image_url : Option String
  after_image_url : Option String
  floor_plan_before_x : Option ℚ
  floor_plan_before_y : Option ℚ
  floor_plan_after_x : Option ℚ
  floor_plan_after_y : Option ℚ
  floor_plan_pins : Option (List FloorPlanPin)
  work_scope : String
  style : String
  vendor_id : Option ℕ
deriving DecidableEq

/-- `PortfolioListResponse` from `types.ts`. -/
structure PortfolioListResponse where
  items : List PortfolioCard
  total : ℕ
deriving DecidableEq

/-- `PortfolioFilters` from `types.ts`.  String-typed filters keep
their JavaScript truthiness semantics (see `truthyStr`). -/
structure PortfolioFilters where
  min_area : Option ℚ
  max_area : Option ℚ
  budget_min_krw : Option ℚ
  budget_max_krw : Option ℚ
  work_scope : Option String
  style : Option String
  vendor_id : Option ℕ
deriving DecidableEq

/-- `BoundsQuery` from `api.ts`. -/
structure BoundsQuery where
  south : ℚ
  west : ℚ
  north : ℚ
  east : ℚ
  zoom : ℤ
deriving DecidableEq

/-- The empty filter object (`DEFAULT_FILTERS = {}` in `App.tsx`). -/
def DEFAULT_FILTERS : PortfolioFilters :=
  { min_area := none, max_area := none, budget_min_krw := none,
    budget_max_krw := none, work_scope := none, style := none,
    vendor_id := none }

/-- `DEFAULT_BOUNDS` from `App.tsx`. -/
def DEFAULT_BOUNDS : BoundsQuery :=
  { south := 37.4, west := 127.0, north := 37.6, east := 127.2, zoom := 13 }

/-- The gallery side of a card (`type CardImageSide = "before" | "after"`). -/
inductive CardImageSide where
  | before
  | after
deriving DecidableEq

/-- A pin of the public floor-plan pin layer
(`type FloorPin = { portfolioId; side; x; y }` in `App.tsx`). -/
structure FloorPin where
  portfolioId : ℕ
  side : CardImageSide
  x : ℚ
  y : ℚ
deriving DecidableEq

/-! ## Pure helpers of `App.tsx` -/

/-- `defaultImageSide` from `App.tsx`:
the default gallery side of a freshly appearing card. -/
def defaultImageSide (card : PortfolioCard) : Option CardImageSide :=
  if truthyStr card.after_image_url then some CardImageSide.after
  else if truthyStr card.before_image_url then some CardImageSide.before
  else some CardImageSide.after

/-- `fallbackFloorPin` from `App.tsx`: the deterministic synthetic
floor-plan coordinates of a portfolio that carries no explicit
coordinates.  The source computes with JavaScript numbers; on the
positive integral portfolio ids of this code base the arithmetic is the
natural-number arithmetic below. -/
def fallbackFloorPin (portfolioId : ℕ) (side : CardImageSide) : ℕ × ℕ :=
  let baseX := 18 + portfolioId * 17 % 64
  let baseY := 16 + portfolioId * 13 % 66
  match side with
  | CardImageSide.before => (baseX, baseY)
  | CardImageSide.after => (min 92 (baseX + 6), min 92 (baseY + 4))

/-- The two pins one card contributes to the floor-plan pin layer
(the body of the `portfolios.forEach` in the `floorPlanPins` memo of
`App.tsx`). -/
def cardFloorPins (card : PortfolioCard) : List FloorPin :=
  let before := fallbackFloorPin card.portfolio_id CardImageSide.before
  let after := fallbackFloorPin card.portfolio_id CardImageSide.after
  [ { portfolioId := card.portfolio_id, side := CardImageSide.before,
      x := card.floor_plan_before_x.getD (before.1 : ℚ),
      y := card.floor_plan_before_y.getD (before.2 : ℚ) },
    { portfolioId := card.portfolio_id, side := CardImageSide.after,
      x := card.floor_plan_after_x.getD (after.1 : ℚ),
      y := card.floor_plan_after_y.getD (after.2 : ℚ) } ]

/-- The `floorPlanPins` memo of `App.tsx`: the displayed floor-plan pin
layer, derived from the current portfolio list (the source pushes the
two pins of each card onto an accumulator array, left to right). -/
def floorPlanPins (portfolios : List PortfolioCard) : List FloorPin :=
  portfolios.foldl (fun pins card => pins ++ cardFloorPins card) []

/-! ## Pointer-to-percentage mapping (from `AdminApp.tsx`) -/

/-- A DOM bounding rectangle (`el.getBoundingClientRect()`). -/
structure Rect where
  left : ℚ
  top : ℚ
  width : ℚ
  height : ℚ
deriving DecidableEq

/-- `ratioFromClient` from `AdminApp.tsx`: client pixel coordinates to
clamped percentage coordinates of the floor-plan editor. -/
def ratioFromClient (clientX clientY : ℚ) (rect : Rect) : ℚ × ℚ :=
  (max 0 (min 100 ((clientX - rect.left) / rect.width * 100)),
   max 0 (min 100 ((clientY - rect.top) / rect.height * 100)))

/-! ## Claim C7: deterministic synthetic pin placement -/

/-- C7: for every portfolio id with no explicit coordinates the derived
synthetic coordinates follow the documented arithmetic
`x = 18 + (id*17 mod 64)`, `y = 16 + (id*13 mod 66)` (the `after` side
is then nudged by `(+6, +4)` and re-clamped to at most 92), the
computation is a pure function of the id (hence identical across
repeated computations), and both coordinates always lie within
`[0,100] × [0,100]`. -/
theorem c7_deterministic_fallback :
    ∀ id : ℕ,
      fallbackFloorPin id CardImageSide.before =
        (18 + id * 17 % 64, 16 + id * 13 % 66) ∧
      fallbackFloorPin id CardImageSide.after =
        (min 92 (18 + id * 17 % 64 + 6), min 92 (16 + id * 13 % 66 + 4)) ∧
      ∀ side : CardImageSide,
        fallbackFloorPin id side = fallbackFloorPin id side ∧
        (fallbackFloorPin id side).1 ≤ 100 ∧
        (fallbackFloorPin id side).2 ≤ 100 := by
  intro id
  have hx : id * 17 % 64 < 64 := Nat.mod_lt _ (by norm_num)
  have hy : id * 13 % 66 < 66 := Nat.mod_lt _ (by norm_num)
  refine ⟨rfl, rfl, ?_⟩
  intro side
  refine ⟨rfl, ?_, ?_⟩ <;>
    cases side <;>
      simp only [fallbackFloorPin, Nat.min_def] <;>
        (try split) <;> omega

/-! ## Claim C8: coordinate round-trip -/

/-- C8: for every container rectangle with positive width and height
and every `(x, y)` in `[0,100] × [0,100]`, converting the percentage
coordinates to a client pixel position inside the rectangle
(`clientX = rect.left + x/100 * rect.width`,
`clientY = rect.top + y/100 * rect.height`) and mapping back through
`ratioFromClient` returns `(x, y)` exactly (the embedding computes with
exact rationals, so "up to floating-point rounding" becomes equality). -/
theorem c8_coordinate_round_trip (rect : Rect) (x y : ℚ)
    (hw : 0 < rect.width) (hh : 0 < rect.height)
    (hx0 : 0 ≤ x) (hx1 : x ≤ 100) (hy0 : 0 ≤ y) (hy1 : y ≤ 100) :
    ratioFromClient (rect.left + x / 100 * rect.width)
      (rect.top + y / 100 * rect.height) rect = (x, y) := by
  have hwx : (rect.left + x / 100 * rect.width - rect.left) / rect.width * 100 = x := by
    field_simp
    ring
  have hwy : (rect.top + y / 100 * rect.height - rect.top) / rect.height * 100 = y := by
    field_simp
    ring
  simp only [ratioFromClient, hwx, hwy, min_eq_right hx1, min_eq_right hy1,
    max_eq_right hx0, max_eq_right hy0]

/-- Witness for C8 at a concrete rectangle and point. -/
theorem c8_witness :
    ratioFromClient ((3 : ℚ) + 25 / 100 * 7) ((5 : ℚ) + 100 / 100 * 11)
      { left := 3, top := 5, width := 7, height := 11 } = (25, 100) :=
  c8_coordinate_round_trip
    { left := 3, top := 5, width := 7, height := 11 } 25 100
    (by norm_num) (by norm_num) (by norm_num) (by norm_num) (by norm_num)
    (by norm_num)

/-! ## Gallery-side reconciliation (`selectedCardImages` effect of `App.tsx`) -/

/-- One iteration of the `portfolios.forEach` in the `selectedCardImages`
reconciliation effect of `App.tsx`: keep a previously chosen side of a
surviving card, otherwise assign the card's default side (if any). -/
def applyCardImage (prev : ℕ → Option CardImageSide)
    (next : ℕ → Option CardImageSide) (card : PortfolioCard) :
    ℕ → Option CardImageSide :=
  match prev card.portfolio_id with
  | some side => fun id => if id = card.portfolio_id then some side else next id
  | none =>
      match defaultImageSide card with
      | some fallback => fun id => if id = card.portfolio_id then some fallback else next id
      | none => next

/-- The `selectedCardImages` reconciliation effect of `App.tsx`: rebuild
the id-to-gallery-side record from scratch over the current portfolio
list (the record is modelled as a function `ℕ → Option CardImageSide`;
a JavaScript object key written later overwrites an earlier one, which
the fold captures by wrapping later updates around earlier ones). -/
def reconcileCardImages (prev : ℕ → Option CardImageSide)
    (cards : List PortfolioCard) : ℕ → Option CardImageSide :=
  cards.foldl (applyCardImage prev) (fun _ => none)

/-- The value the reconciliation effect stores for a card that ends up
in the rebuilt record. -/
def cardImageValue (prev : ℕ → Option CardImageSide) (card : PortfolioCard) :
    Option CardImageSide :=
  match prev card.portfolio_id with
  | some side => some side
  | none => defaultImageSide card

theorem defaultImageSide_isSome (card : PortfolioCard) :
    (defaultImageSide card).isSome := by
  unfold defaultImageSide
  split
  · rfl
  · split <;> rfl

theorem reconcile_aux (prev : ℕ → Option CardImageSide)
    (cards : List PortfolioCard) :
    ∀ (a : ℕ → Option CardImageSide) (id : ℕ),
      cards.foldl (applyCardImage prev) a id =
        match cards.reverse.find? (fun c => c.portfolio_id == id) with
        | some c => cardImageValue prev c
        | none => a id := by
  induction cards with
  | nil => intro a id; rfl
  | cons c cs ih =>
    intro a id
    rw [List.foldl_cons, ih]
    rw [List.reverse_cons, List.find?_append]
    cases h : cs.reverse.find? (fun x => x.portfolio_id == id) with
    | some c2 => simp [h]
    | none =>
      simp only [h, Option.none_orElse]
      by_cases hc : c.portfolio_id = id
      · subst hc
        simp [applyCardImage, cardImageValue, List.find?]
        cases hp : prev c.portfolio_id with
        | some side => simp [hp]
        | none =>
          simp [hp]
          cases hd : defaultImageSide c with
          | some fb => simp [hd]
          | none => exact absurd (hd ▸ defaultImageSide_isSome c) (by simp)
      · have hbeq : (c.portfolio_id == id) = false := by
          simp [hc]
        have hc2 : ¬id = c.portfolio_id := fun h => hc h.symm
        simp only [List.find?, hbeq]
        cases hp : prev c.portfolio_id with
        | some side => simp [applyCardImage, hp, hc2]
        | none =>
          cases hd : defaultImageSide c with
          | some fb => simp [applyCardImage, hp, hd, hc2]
          | none => simp [applyCardImage, hp, hd]

theorem reconcile_isSome (prev : ℕ → Option CardImageSide)
    (cards : List PortfolioCard) (id : ℕ) :
    (reconcileCardImages prev cards id).isSome ↔
      id ∈ cards.map (fun c => c.portfolio_id) := by
  rw [reconcileCardImages, reconcile_aux]
  cases cads_find : cards.reverse.find? (fun c => c.portfolio_id == id) with
  | some c =>
    have hmem := List.mem_of_find?_eq_some cads_find
    have hpred := List.find?_some cads_find
    simp only [beq_iff_eq] at hpred
    constructor
    · intro _
      exact List.mem_map.mpr ⟨c, List.mem_reverse.mp hmem, hpred⟩
    · intro _
      cases hp : prev c.portfolio_id with
      | some side => simp [cardImageValue, hp]
      | none => simp [cardImageValue, hp, defaultImageSide_isSome]
  | none =>
    have hnm : id ∉ cards.map (fun c => c.portfolio_id) := by
      intro hmem
      obtain ⟨c, hc, hcid⟩ := List.mem_map.mp hmem
      have := List.find?_eq_none.mp cads_find c (List.mem_reverse.mpr hc)
      simp [hcid] at this
    simp [cads_find, hnm]

/-- C10: after every change to the portfolio list the rebuilt
`selectedCardImages` record has exactly the ids of the current portfolio
list as keys; a side previously chosen for a surviving card is
preserved; every newly appearing card receives its default side; and
the default side is "after" when the card has a (truthy) after image or
no (truthy) images at all, and "before" when only a before image is
present. -/
theorem c10_card_images_invariant
    (prev : ℕ → Option CardImageSide) (cards : List PortfolioCard)
    (id : ℕ) (side : CardImageSide) (card : PortfolioCard)
    (hmem : card ∈ cards)
    (hnodup : (cards.map (fun c => c.portfolio_id)).Nodup)
    (hprev : prev card.portfolio_id = none)
    (hkeep : prev id = some side)
    (hid : id ∈ cards.map (fun c => c.portfolio_id)) :
    (∀ j, (reconcileCardImages prev cards j).isSome ↔
      j ∈ cards.map (fun c => c.portfolio_id)) ∧
    reconcileCardImages prev cards id = some side ∧
    reconcileCardImages prev cards card.portfolio_id = defaultImageSide card ∧
    (∀ c : PortfolioCard,
      (truthyStr c.after_image_url = true →
        defaultImageSide c = some CardImageSide.after) ∧
      (truthyStr c.after_image_url = false → truthyStr c.before_image_url = true →
        defaultImageSide c = some CardImageSide.before) ∧
      (truthyStr c.after_image_url = false → truthyStr c.before_image_url = false →
        defaultImageSide c = some CardImageSide.after)) := by
  refine ⟨fun j => reconcile_isSome prev cards j, ?_, ?_, ?_⟩
  · have hsome : (reconcileCardImages prev cards id).isSome :=
      (reconcile_isSome prev cards id).mpr hid
    rw [reconcileCardImages, reconcile_aux] at hsome ⊢
    cases hfind : cards.reverse.find? (fun c => c.portfolio_id == id) with
    | some c =>
      have hpred := List.find?_some hfind
      simp only [beq_iff_eq] at hpred
      simp [hfind, cardImageValue, hpred, hkeep]
    | none => simp [hfind] at hsome
  · rw [reconcileCardImages, reconcile_aux]
    cases hfind : cards.reverse.find? (fun c => c.portfolio_id == card.portfolio_id) with
    | some c =>
      have hcm := List.mem_reverse.mp (List.mem_of_find?_eq_some hfind)
      have hpred := List.find?_some hfind
      simp only [beq_iff_eq] at hpred
      have : c = card := List.inj_on_of_nodup_map hnodup hcm hmem hpred
      subst this
      simp [cardImageValue, hprev]
    | none =>
      have := List.find?_eq_none.mp hfind card (List.mem_reverse.mpr hmem)
      simp at this
  · intro c
    refine ⟨?_, ?_, ?_⟩ <;> intros <;> simp_all [defaultImageSide]

/-- A newly appearing card (no images) used by the C10 witness. -/
def c10cardA : PortfolioCard :=
  { portfolio_id := 1, title := "a", before_image_url := none,
    after_image_url := none, floor_plan_before_x := none,
    floor_plan_before_y := none, floor_plan_after_x := none,
    floor_plan_after_y := none, floor_plan_pins := none,
    work_scope := "kitchen", style := "modern", vendor_id := none }

/-- A surviving card (only a before image) used by the C10 witness. -/
def c10cardB : PortfolioCard :=
  { c10cardA with
      portfolio_id := 2, title := "b",
      before_image_url := some "u", work_scope := "bathroom" }

/-- The previous `selectedCardImages` record of the C10 witness:
side "before" was chosen for card 2. -/
def c10prev : ℕ → Option CardImageSide :=
  fun n => if n = 2 then some CardImageSide.before else none

/-- Witness for C10: two current cards, one with a previously chosen
side ("before" for id 2, preserved), one newly appearing (id 1,
default side assigned). -/
theorem c10_witness :
    (∀ j, (reconcileCardImages c10prev [c10cardA, c10cardB] j).isSome ↔
      j ∈ [c10cardA, c10cardB].map (fun c => c.portfolio_id)) ∧
    reconcileCardImages c10prev [c10cardA, c10cardB] 2 =
      some CardImageSide.before ∧
    reconcileCardImages c10prev [c10cardA, c10cardB] c10cardA.portfolio_id =
      defaultImageSide c10cardA ∧
    (∀ c : PortfolioCard,
      (truthyStr c.after_image_url = true →
        defaultImageSide c = some CardImageSide.after) ∧
      (truthyStr c.after_image_url = false → truthyStr c.before_image_url = true →
        defaultImageSide c = some CardImageSide.before) ∧
      (truthyStr c.after_image_url = false → truthyStr c.before_image_url = false →
        defaultImageSide c = some CardImageSide.after)) :=
  c10_card_images_invariant c10prev [c10cardA, c10cardB] 2 CardImageSide.before
    c10cardA (by simp) (by decide) (by decide) (by decide) (by decide)

/-! ## Claim C6: shape of the floor-plan pin layer -/

theorem cardFloorPins_portfolioId (c : PortfolioCard) :
    ∀ p ∈ cardFloorPins c, p.portfolioId = c.portfolio_id := by
  intro p hp
  simp only [cardFloorPins, List.mem_cons, List.mem_singleton,
    List.not_mem_nil, or_false] at hp
  rcases hp with h | h <;> subst h <;> rfl

theorem floorPlanPins_aux (cards : List PortfolioCard) :
    ∀ acc : List FloorPin,
      cards.foldl (fun pins card => pins ++ cardFloorPins card) acc =
        acc ++ cards.flatMap cardFloorPins := by
  induction cards with
  | nil => intro acc; simp
  | cons c cs ih =>
    intro acc
    rw [List.foldl_cons, ih, List.flatMap_cons, List.append_assoc]

theorem floorPlanPins_eq (cards : List PortfolioCard) :
    floorPlanPins cards = cards.flatMap cardFloorPins := by
  rw [floorPlanPins, floorPlanPins_aux, List.nil_append]

theorem floorPlanPins_length (cards : List PortfolioCard) :
    (floorPlanPins cards).length = 2 * cards.length := by
  rw [floorPlanPins_eq]
  induction cards with
  | nil => rfl
  | cons c cs ih =>
    simp only [List.flatMap_cons, List.length_append, ih, List.length_cons]
    simp [cardFloorPins]
    omega

theorem floorPlanPins_filter (cards : List PortfolioCard) (card : PortfolioCard)
    (hmem : card ∈ cards)
    (hnodup : (cards.map (fun c => c.portfolio_id)).Nodup) :
    (floorPlanPins cards).filter (fun p => p.portfolioId == card.portfolio_id) =
      cardFloorPins card := by
  rw [floorPlanPins_eq]
  induction cards with
  | nil => cases hmem
  | cons c cs ih =>
    rw [List.map_cons, List.nodup_cons] at hnodup
    rw [List.flatMap_cons, List.filter_append]
    rcases List.mem_cons.mp hmem with h | h
    · subst h
      have hhead : (cardFloorPins card).filter
          (fun p => p.portfolioId == card.portfolio_id) = cardFloorPins card := by
        rw [List.filter_eq_self]
        intro p hp
        simp [cardFloorPins_portfolioId card p hp]
      have hrest : (cs.flatMap cardFloorPins).filter
          (fun p => p.portfolioId == card.portfolio_id) = [] := by
        rw [List.filter_eq_nil_iff]
        intro p hp
        obtain ⟨c2, hc2, hpc2⟩ := List.mem_flatMap.mp hp
        have hpid := cardFloorPins_portfolioId c2 p hpc2
        have : c2.portfolio_id ≠ card.portfolio_id := by
          intro he
          exact hnodup.1 (he ▸ List.mem_map.mpr ⟨c2, hc2, rfl⟩)
        simp [hpid, this]
      rw [hhead, hrest, List.append_nil]
    · have hne : c.portfolio_id ≠ card.portfolio_id := by
        intro he
        exact hnodup.1 (he ▸ List.mem_map.mpr ⟨card, h, rfl⟩)
      have hhead : (cardFloorPins c).filter
          (fun p => p.portfolioId == card.portfolio_id) = [] := by
        rw [List.filter_eq_nil_iff]
        intro p hp
        have hpid := cardFloorPins_portfolioId c p hp
        simp [hpid, hne]
      rw [hhead, List.nil_append]
      exact ih h hnodup.2

theorem floorPlanPins_ignores_explicit (cards : List PortfolioCard)
    (f : Option (List FloorPlanPin)) :
    floorPlanPins (cards.map (fun c => { c with floor_plan_pins := f })) =
      floorPlanPins cards := by
  rw [floorPlanPins_eq, floorPlanPins_eq]
  induction cards with
  | nil => rfl
  | cons c cs ih =>
    simp only [List.map_cons, List.flatMap_cons, ih]
    rfl

/-- A card carrying one explicit floor-plan pin at (1, 2) and no
per-side coordinate overrides, used to refute C6. -/
def c6card : PortfolioCard :=
  { portfolio_id := 3, title := "demo", before_image_url := none,
    after_image_url := none, floor_plan_before_x := none,
    floor_plan_before_y := none, floor_plan_after_x := none,
    floor_plan_after_y := none,
    floor_plan_pins := some [ { pin_id := "p1", x := 1, y := 2, title := none,
                                before_image_urls := [], after_image_urls := [] } ],
    work_scope := "kitchen", style := "minimal", vendor_id := none }

/-- Counterexample to C6 as stated: a card carrying an explicit
`floor_plan_pins` entry at (1, 2) contributes two synthetic pins to
the displayed layer — not one pin per explicit entry used as-is (no
displayed pin has the explicit coordinates), and not "exactly one
synthetic pin" either. -/
theorem c6_counterexample :
    c6card.floor_plan_pins =
      some [ { pin_id := "p1", x := 1, y := 2, title := none,
               before_image_urls := [], after_image_urls := [] } ] ∧
    (floorPlanPins [c6card]).length = 2 ∧
    ¬(floorPlanPins [c6card]).length = 1 ∧
    ∀ p ∈ floorPlanPins [c6card], ¬(p.x = 1 ∧ p.y = 2) := by
  refine ⟨rfl, rfl, by decide, ?_⟩
  intro p hp
  simp only [floorPlanPins, List.foldl_cons, List.foldl_nil, List.nil_append,
    cardFloorPins, c6card, List.mem_cons, List.mem_singleton,
    List.not_mem_nil, or_false] at hp
  rcases hp with h | h <;> subst h <;> norm_num [fallbackFloorPin]

/-- C6, amended: every portfolio card in the current list contributes
exactly two pins to the displayed floor-plan pin layer — one "before"
pin and one "after" pin — whose coordinates are the card's explicit
per-side overrides (`floor_plan_before_x/y`, `floor_plan_after_x/y`)
when present and the deterministic fallback coordinates otherwise; the
explicit `floor_plan_pins` list of a card is never consulted. -/
theorem c6_pin_set_shape_amended (cards : List PortfolioCard)
    (card : PortfolioCard) (hmem : card ∈ cards)
    (hnodup : (cards.map (fun c => c.portfolio_id)).Nodup) :
    (floorPlanPins cards).length = 2 * cards.length ∧
    (floorPlanPins cards).filter (fun p => p.portfolioId == card.portfolio_id) =
      cardFloorPins card ∧
    cardFloorPins card =
      [ { portfolioId := card.portfolio_id, side := CardImageSide.before,
          x := card.floor_plan_before_x.getD
            ((fallbackFloorPin card.portfolio_id CardImageSide.before).1 : ℚ),
          y := card.floor_plan_before_y.getD
            ((fallbackFloorPin card.portfolio_id CardImageSide.before).2 : ℚ) },
        { portfolioId := card.portfolio_id, side := CardImageSide.after,
          x := card.floor_plan_after_x.getD
            ((fallbackFloorPin card.portfolio_id CardImageSide.after).1 : ℚ),
          y := card.floor_plan_after_y.getD
            ((fallbackFloorPin card.portfolio_id CardImageSide.after).2 : ℚ) } ] ∧
    (∀ f : Option (List FloorPlanPin),
      floorPlanPins (cards.map (fun c => { c with floor_plan_pins := f })) =
        floorPlanPins cards) :=
  ⟨floorPlanPins_length cards, floorPlanPins_filter cards card hmem hnodup,
    rfl, fun f => floorPlanPins_ignores_explicit cards f⟩

/-- Witness for the amended C6 at a concrete two-card list. -/
theorem c6_witness :
    (floorPlanPins [c6card, c10cardA]).length = 2 * 2 ∧
    (floorPlanPins [c6card, c10cardA]).filter
      (fun p => p.portfolioId == c6card.portfolio_id) = cardFloorPins c6card ∧
    cardFloorPins c6card =
      [ { portfolioId := c6card.portfolio_id, side := CardImageSide.before,
          x := c6card.floor_plan_before_x.getD
            ((fallbackFloorPin c6card.portfolio_id CardImageSide.before).1 : ℚ),
          y := c6card.floor_plan_before_y.getD
            ((fallbackFloorPin c6card.portfolio_id CardImageSide.before).2 : ℚ) },
        { portfolioId := c6card.portfolio_id, side := CardImageSide.after,
          x := c6card.floor_plan_after_x.getD
            ((fallbackFloorPin c6card.portfolio_id CardImageSide.after).1 : ℚ),
          y := c6card.floor_plan_after_y.getD
            ((fallbackFloorPin c6card.portfolio_id CardImageSide.after).2 : ℚ) } ] ∧
    (∀ f : Option (List FloorPlanPin),
      floorPlanPins ([c6card, c10cardA].map (fun c => { c with floor_plan_pins := f })) =
        floorPlanPins [c6card, c10cardA]) :=
  c6_pin_set_shape_amended [c6card, c10cardA] c6card (by simp) (by decide)

/-! ## Claim C5: filter precedence with favorite-vendor fallback -/

/-- Modelled from the spec: the favorite-vendor resolution
(`resolvedFilters = filters ∪ {vendorId: filters.vendorId ??
(autoFavoriteVendorEnabled ? firstFavoriteVendorId : undefined)}`)
is described in the spec (§4.3) but the code computing it is not among
the source files of this snapshot; only its declarations
(`PortfolioFilters.vendor_id` in `types.ts`) and its consumer
(`fetchPortfolios` in `api.ts`) are.  The definition follows the
spec's words. -/
def resolveFilters (filters : PortfolioFilters)
    (autoFavoriteVendorEnabled : Bool) (favoriteVendorIds : List ℕ) :
    PortfolioFilters :=
  { filters with
      vendor_id := filters.vendor_id.orElse
        (fun _ =>
          if autoFavoriteVendorEnabled then favoriteVendorIds.head? else none) }

/-- A query entry for an optional numeric filter field
(`if (filters.x !== undefined) query.x = String(filters.x)` in
`fetchPortfolios` of `api.ts`). -/
def ratParam (key : String) : Option ℚ → List (String × String)
  | some v => [(key, toString v)]
  | none => []

/-- A query entry for an optional integral filter field. -/
def natParam (key : String) : Option ℕ → List (String × String)
  | some v => [(key, toString v)]
  | none => []

/-- A query entry for an optional string filter field, with JavaScript
truthiness (`if (filters.work_scope) ...`). -/
def strParam (key : String) : Option String → List (String × String)
  | some v => if v == "" then [] else [(key, v)]
  | none => []

/-- The query-string parameters built by `fetchPortfolios` in `api.ts`
(the complex id goes into the URL path, not the query). -/
def portfolioQuery (unitTypeId : ℕ) (filters : PortfolioFilters) :
    List (String × String) :=
  [("unit_type_id", toString unitTypeId), ("limit", "30"), ("offset", "0")]
    ++ ratParam "min_area" filters.min_area
    ++ ratParam "max_area" filters.max_area
    ++ ratParam "budget_min_krw" filters.budget_min_krw
    ++ ratParam "budget_max_krw" filters.budget_max_krw
    ++ strParam "work_scope" filters.work_scope
    ++ strParam "style" filters.style
    ++ natParam "vendor_id" filters.vendor_id

theorem lookup_ratParam (k key : String) (hk : (key == k) = false)
    (o : Option ℚ) (rest : List (String × String)) :
    (ratParam k o ++ rest).lookup key = rest.lookup key := by
  cases o <;> simp [ratParam, List.lookup, hk]

theorem lookup_strParam (k key : String) (hk : (key == k) = false)
    (o : Option String) (rest : List (String × String)) :
    (strParam k o ++ rest).lookup key = rest.lookup key := by
  cases o with
  | none => simp [strParam]
  | some s =>
    by_cases hs : (s == "") = true <;> simp [strParam, hs, List.lookup, hk]

theorem portfolioQuery_vendor (u : ℕ) (f : PortfolioFilters) :
    (portfolioQuery u f).lookup "vendor_id" = f.vendor_id.map toString := by
  unfold portfolioQuery
  simp only [List.append_assoc, List.cons_append, List.nil_append]
  rw [show ∀ l : List (String × String),
      (("unit_type_id", toString u) :: ("limit", "30") :: ("offset", "0") :: l).lookup
          "vendor_id" = l.lookup "vendor_id" from fun l => by
    simp [List.lookup]]
  rw [lookup_ratParam _ _ (by decide), lookup_ratParam _ _ (by decide),
    lookup_ratParam _ _ (by decide), lookup_ratParam _ _ (by decide),
    lookup_strParam _ _ (by decide), lookup_strParam _ _ (by decide)]
  cases f.vendor_id <;> simp [natParam, List.lookup]

/-- C5: every portfolio fetch is parameterized by resolved filters
whose vendor id equals the explicitly chosen `vendor_id` when present,
else the user's first favorite vendor id when the auto-favorite-vendor
filter is enabled, else is absent; an explicit vendor id always
overrides the favorite-vendor default, and the `vendor_id` query
parameter sent by `fetchPortfolios` is exactly the resolved vendor id.
(The resolution itself is modelled from the spec, see
`resolveFilters`; the query construction is from `api.ts`.) -/
theorem c5_filter_precedence (f g : PortfolioFilters)
    (autoEnabled : Bool) (favs : List ℕ) (v u : ℕ)
    (hv : f.vendor_id = some v) (hg : g.vendor_id = none) :
    (resolveFilters f autoEnabled favs).vendor_id = some v ∧
    (resolveFilters g true favs).vendor_id = favs.head? ∧
    (resolveFilters g false favs).vendor_id = none ∧
    (resolveFilters DEFAULT_FILTERS true (7 :: favs)).vendor_id = some 7 ∧
    (resolveFilters { DEFAULT_FILTERS with vendor_id := some 9 }
      autoEnabled favs).vendor_id = some 9 ∧
    (∀ fl : PortfolioFilters,
      (portfolioQuery u fl).lookup "vendor_id" = fl.vendor_id.map toString) := by
  refine ⟨?_, ?_, ?_, ?_, ?_, fun fl => portfolioQuery_vendor u fl⟩
  · simp [resolveFilters, hv, Option.orElse]
  · simp [resolveFilters, hg, Option.orElse]
  · simp [resolveFilters, hg, Option.orElse]
  · simp [resolveFilters, DEFAULT_FILTERS, Option.orElse]
  · cases autoEnabled <;> simp [resolveFilters, DEFAULT_FILTERS, Option.orElse]

/-- Witness for C5: favorites `[7]`, auto filter on, no explicit vendor
resolves to 7; an explicit vendor 9 stays 9. -/
theorem c5_witness :
    (resolveFilters { DEFAULT_FILTERS with vendor_id := some 9 } true [7]).vendor_id =
      some 9 ∧
    (resolveFilters DEFAULT_FILTERS true [7]).vendor_id = [7].head? ∧
    (resolveFilters DEFAULT_FILTERS false [7]).vendor_id = none ∧
    (resolveFilters DEFAULT_FILTERS true (7 :: [7])).vendor_id = some 7 ∧
    (resolveFilters { DEFAULT_FILTERS with vendor_id := some 9 } true [7]).vendor_id =
      some 9 ∧
    (∀ fl : PortfolioFilters,
      (portfolioQuery 5 fl).lookup "vendor_id" = fl.vendor_id.map toString) :=
  c5_filter_precedence { DEFAULT_FILTERS with vendor_id := some 9 }
    DEFAULT_FILTERS true [7] 9 5 (by decide) (by decide)

/-! ## The interactive engine of `App.tsx` as a state machine

Each React state variable of `App` becomes a field of `AppState`; each
user interaction or asynchronous completion becomes an `AppEvent`.  An
event first performs the synchronous `setState` calls of its handler
(`rawStep`; `none` means the handler bailed out or a superseded
response was discarded, in which case no render happens), and then the
claim-relevant reconciliation effects of a commit run
(`runAfterRenderEffects`: the `selectedPinnedPortfolioId` cleanup
effects of `App.tsx`).  The data-fetch effects keyed on `[bounds,
mapMode]` and on `[selectedComplex, selectedUnitType, filters,
highlightList]` re-run whenever one of their dependencies receives a
new object identity — which, for object-valued state, is on every
`setState` of that slice — and this re-run is inlined into the event
that changes the dependency (`triggerPinsEffect`,
`triggerPortfolioEffect`): the cleanup of the previous effect run sets
that run's `cancelled` flag (generation bump) and the new run records
at most one live request. -/

/-- `type MapMode = "bounds" | "nearby"` from `App.tsx`. -/
inductive MapMode where
  | bounds
  | nearby
deriving DecidableEq

/-- `type MobilePanel = "map" | "list"` from `App.tsx`. -/
inductive MobilePanel where
  | map
  | list
deriving DecidableEq

/-- The collaborator API (`api.ts`), as response functions: what each
endpoint would answer for given parameters. -/
structure ApiEnv where
  mapPins : BoundsQuery → MapPinsResponse
  nearbyComplexes : ℚ → ℚ → ℚ → List ComplexPin
  complexDetail : ℕ → ComplexDetailResponse
  portfolios : ℕ → ℕ → PortfolioFilters → PortfolioListResponse

/-- The state of the `App` component: its `useState` variables, plus
the bookkeeping of outstanding asynchronous work (`pinsGen`/`pinsReq`
and `portfolioGen`/`portfolioReq` are the generation-counter encoding
of the per-effect `cancelled` flags; `pendingDetail` and
`nearbyPending` list outstanding un-guarded fetches, which the source
never cancels). -/
structure AppState where
  bounds : BoundsQuery
  clusters : List ClusterPin
  complexes : List ComplexPin
  selectedComplex : Option ComplexDetailResponse
  selectedUnitType : Option UnitTypeChip
  portfolios : List PortfolioCard
  filters : PortfolioFilters
  status : String
  loadingMap : Bool
  loadingPortfolios : Bool
  mapMode : MapMode
  mobilePanel : MobilePanel
  highlightList : Bool
  userLocation : Option (ℚ × ℚ)
  nearbyRadiusM : ℚ
  selectedPinnedPortfolioId : Option ℕ
  pinsGen : ℕ
  pinsReq : Option (ℕ × BoundsQuery)
  portfolioGen : ℕ
  portfolioReq : Option (ℕ × ℕ × ℕ × PortfolioFilters)
  pendingDetail : List (ℕ × Bool)
  nearbyPending : List (ℚ × ℚ × ℚ)
deriving DecidableEq

/-- The events driving the engine.  Asynchronous operations appear as
separate start / resolve / fail events so that responses can arrive in
any order relative to later triggers. -/
inductive AppEvent where
  | boundsChange (b : BoundsQuery)
  | pinsResolve (g : ℕ)
  | pinsFail (g : ℕ) (msg : String)
  | selectComplexStart (cid : ℕ) (fromMap : Bool)
  | selectComplexResolve (cid : ℕ) (fromMap : Bool)
  | selectComplexFail (cid : ℕ) (fromMap : Bool) (msg : String)
  | unitTypeSelect (u : UnitTypeChip)
  | setFilters (f : PortfolioFilters)
  | portfolioResolve (g : ℕ)
  | portfolioFail (g : ℕ) (msg : String)
  | pinSelect (pid : ℕ)
  | highlightTimerFire
  | nearbyStart (lat lng : ℚ)
  | nearbyResolve (lat lng radius : ℚ)
  | nearbyFail (lat lng radius : ℚ) (msg : String)
  | backToBounds (b : BoundsQuery)

/-- Re-run of the map-pins effect (`App.tsx`, deps `[bounds, mapMode]`):
the cleanup cancels the previous scheduled/in-flight fetch (generation
bump) and, in bounds mode, a new debounced fetch for the current bounds
is scheduled (`loadPins` sets the map-loading flag when it runs). -/
def triggerPinsEffect (s : AppState) : AppState :=
  let g := s.pinsGen + 1
  if s.mapMode = MapMode.bounds then
    { s with pinsGen := g, pinsReq := some (g, s.bounds), loadingMap := true }
  else
    { s with pinsGen := g, pinsReq := none }

/-- Re-run of the portfolio effect (`App.tsx`, deps `[selectedComplex,
selectedUnitType, filters, highlightList]`): the cleanup cancels the
previous fetch; if a complex and a unit type are selected a new fetch
for the current `{complexId, unitTypeId, filters}` is issued. -/
def triggerPortfolioEffect (s : AppState) : AppState :=
  let g := s.portfolioGen + 1
  match s.selectedComplex, s.selectedUnitType with
  | some d, some u =>
      { s with portfolioGen := g,
               portfolioReq := some (g, d.complex_id, u.unit_type_id, s.filters),
               loadingPortfolios := true,
               status := "포트폴리오를 조회 중입니다." }
  | _, _ => { s with portfolioGen := g, portfolioReq := none }

/-- The effect of `App.tsx` that clears `selectedPinnedPortfolioId`
when the selected card is missing from the current portfolio list
(its body is self-guarding, so running it after every commit is
equivalent to running it when its deps change). -/
def applyPinnedCleanup (s : AppState) : AppState :=
  match s.selectedPinnedPortfolioId with
  | none => s
  | some pid =>
      if s.portfolios.any (fun c => c.portfolio_id == pid) then s
      else { s with selectedPinnedPortfolioId := none }

/-- The effect of `App.tsx` keyed on `selectedUnitType?.unit_type_id`:
it resets `selectedPinnedPortfolioId` whenever that value changes. -/
def applyUnitChangeCleanup (oldUnitId newUnitId : Option ℕ) (s : AppState) :
    AppState :=
  if newUnitId = oldUnitId then s
  else { s with selectedPinnedPortfolioId := none }

/-- The reconciliation effects that run after a commit, given the
pre-commit state `p` and the raw post-handler state `r`. -/
def runAfterRenderEffects (p r : AppState) : AppState :=
  applyPinnedCleanup
    (applyUnitChangeCleanup (p.selectedUnitType.map (fun u => u.unit_type_id))
      (r.selectedUnitType.map (fun u => u.unit_type_id)) r)

/-- The synchronous `setState` calls performed by one event's handler
(plus the inlined re-runs of the data-fetch effects whose dependencies
the handler changed).  `none` means the handler bailed out without any
`setState` — in particular, a response whose generation was superseded
(its `cancelled` flag set) is discarded without any state change. -/
def rawStep (env : ApiEnv) (s : AppState) : AppEvent → Option AppState
  | AppEvent.boundsChange b =>
      some (triggerPinsEffect { s with bounds := b })
  | AppEvent.pinsResolve g =>
      match s.pinsReq with
      | some (g2, b) =>
          if g2 = g then
            let data := env.mapPins b
            some { s with clusters := data.clusters,
                          complexes := data.complexes,
                          status := "지도 데이터 업데이트 완료",
                          loadingMap := false, pinsReq := none }
          else none
      | none => none
  | AppEvent.pinsFail g msg =>
      match s.pinsReq with
      | some (g2, _) =>
          if g2 = g then
            some { s with status := msg, loadingMap := false, pinsReq := none }
          else none
      | none => none
  | AppEvent.selectComplexStart cid fromMap =>
      some { s with status := "단지 정보를 불러오는 중입니다.",
                    pendingDetail := (cid, fromMap) :: s.pendingDetail }
  | AppEvent.selectComplexResolve cid fromMap =>
      if (cid, fromMap) ∈ s.pendingDetail then
        let detail := env.complexDetail cid
        let first := detail.unit_types.head?
        let s1 := { s with pendingDetail := s.pendingDetail.erase (cid, fromMap),
                           selectedComplex := some detail,
                           selectedUnitType := first }
        let s2 := if fromMap then
            { s1 with mobilePanel := MobilePanel.list, highlightList := true }
          else s1
        let s3 := if first = none then
            { s2 with portfolios := [], status := "이 단지는 타입 정보가 없습니다." }
          else s2
        some (triggerPortfolioEffect s3)
      else none
  | AppEvent.selectComplexFail cid fromMap msg =>
      if (cid, fromMap) ∈ s.pendingDetail then
        some { s with pendingDetail := s.pendingDetail.erase (cid, fromMap),
                      status := msg }
      else none
  | AppEvent.unitTypeSelect u =>
      match s.selectedComplex with
      | some d =>
          if u ∈ d.unit_types then
            if s.selectedUnitType = some u then none
            else some (triggerPortfolioEffect { s with selectedUnitType := some u })
          else none
      | none => none
  | AppEvent.setFilters f =>
      some (triggerPortfolioEffect { s with filters := f })
  | AppEvent.portfolioResolve g =>
      match s.portfolioReq with
      | some (g2, c, uid, fq) =>
          if g2 = g then
            let data := env.portfolios c uid fq
            some { s with portfolios := data.items,
                          status := "조회 완료: " ++ toString data.total ++ "건",
                          loadingPortfolios := false, portfolioReq := none }
          else none
      | none => none
  | AppEvent.portfolioFail g msg =>
      match s.portfolioReq with
      | some (g2, _, _, _) =>
          if g2 = g then
            some { s with status := msg, loadingPortfolios := false,
                          portfolioReq := none }
          else none
      | none => none
  | AppEvent.pinSelect pid =>
      if s.selectedUnitType.isSome &&
          s.portfolios.any (fun c => c.portfolio_id == pid) then
        let s1 := { s with selectedPinnedPortfolioId := some pid,
                           mobilePanel := MobilePanel.list }
        if s.highlightList then some s1
        else some (triggerPortfolioEffect { s1 with highlightList := true })
      else none
  | AppEvent.highlightTimerFire =>
      if s.highlightList then
        some (triggerPortfolioEffect { s with highlightList := false })
      else none
  | AppEvent.nearbyStart lat lng =>
      some { s with status := "현재 위치를 확인하는 중입니다.",
                    userLocation := some (lat, lng),
                    loadingMap := true,
                    nearbyPending := (lat, lng, s.nearbyRadiusM) :: s.nearbyPending }
  | AppEvent.nearbyResolve lat lng radius =>
      if (lat, lng, radius) ∈ s.nearbyPending then
        let items := env.nearbyComplexes lat lng radius
        let s1 := { s with nearbyPending := s.nearbyPending.erase (lat, lng, radius),
                           mapMode := MapMode.nearby, clusters := [],
                           complexes := items,
                           status := "내 위치 기준 " ++
                             toString (round (radius / 1000) : ℤ) ++ "km 내 " ++
                             toString items.length ++ "개 단지",
                           loadingMap := false }
        if s.mapMode = MapMode.bounds then some (triggerPinsEffect s1)
        else some s1
      else none
  | AppEvent.nearbyFail lat lng radius msg =>
      if (lat, lng, radius) ∈ s.nearbyPending then
        some { s with nearbyPending := s.nearbyPending.erase (lat, lng, radius),
                      status := msg, loadingMap := false }
      else none
  | AppEvent.backToBounds b =>
      some (triggerPinsEffect
        { s with mapMode := MapMode.bounds, userLocation := none, bounds := b,
                 status := "일반 지도 탐색 모드로 전환했습니다." })

/-- One engine step: the handler's `setState` calls followed by the
reconciliation effects of the commit (or nothing at all when the
handler bailed out / the response was discarded). -/
def step (env : ApiEnv) (s : AppState) (e : AppEvent) : AppState :=
  match rawStep env s e with
  | none => s
  | some r => runAfterRenderEffects s r

/-- Run a sequence of events. -/
def runApp (env : ApiEnv) : AppState → List AppEvent → AppState
  | s, [] => s
  | s, e :: es => runApp env (step env s e) es

/-- The mount-time state of `App` (the `useState` initial values). -/
def mkInit : AppState :=
  { bounds := DEFAULT_BOUNDS, clusters := [], complexes := [],
    selectedComplex := none, selectedUnitType := none, portfolios := [],
    filters := DEFAULT_FILTERS, status := "지도를 초기화하는 중입니다.",
    loadingMap := false, loadingPortfolios := false,
    mapMode := MapMode.bounds, mobilePanel := MobilePanel.map,
    highlightList := false, userLocation := none, nearbyRadiusM := 3000,
    selectedPinnedPortfolioId := none,
    pinsGen := 0, pinsReq := none, portfolioGen := 0, portfolioReq := none,
    pendingDetail := [], nearbyPending := [] }

/-! ## Basic lemmas about the reconciliation effects -/

theorem applyPinnedCleanup_eq (s : AppState) :
    applyPinnedCleanup s = s ∨
      applyPinnedCleanup s = { s with selectedPinnedPortfolioId := none } := by
  unfold applyPinnedCleanup
  cases s.selectedPinnedPortfolioId with
  | none => exact Or.inl rfl
  | some pid =>
    dsimp only
    split
    · exact Or.inl rfl
    · exact Or.inr rfl

theorem applyUnitChangeCleanup_eq (a b : Option ℕ) (s : AppState) :
    applyUnitChangeCleanup a b s = s ∨
      applyUnitChangeCleanup a b s = { s with selectedPinnedPortfolioId := none } := by
  unfold applyUnitChangeCleanup
  split
  · exact Or.inl rfl
  · exact Or.inr rfl

theorem runAfterRenderEffects_eq (p r : AppState) :
    runAfterRenderEffects p r = r ∨
      runAfterRenderEffects p r = { r with selectedPinnedPortfolioId := none } := by
  unfold runAfterRenderEffects
  rcases applyUnitChangeCleanup_eq (p.selectedUnitType.map (fun u => u.unit_type_id))
      (r.selectedUnitType.map (fun u => u.unit_type_id)) r with h | h <;> rw [h]
  · exact applyPinnedCleanup_eq r
  · rcases applyPinnedCleanup_eq { r with selectedPinnedPortfolioId := none }
        with h2 | h2 <;> rw [h2]
    · exact Or.inr rfl
    · exact Or.inr rfl

theorem effects_bounds (p r : AppState) :
    (runAfterRenderEffects p r).bounds = r.bounds := by
  rcases runAfterRenderEffects_eq p r with h | h <;> simp [h]

theorem effects_clusters (p r : AppState) :
    (runAfterRenderEffects p r).clusters = r.clusters := by
  rcases runAfterRenderEffects_eq p r with h | h <;> simp [h]

theorem effects_complexes (p r : AppState) :
    (runAfterRenderEffects p r).complexes = r.complexes := by
  rcases runAfterRenderEffects_eq p r with h | h <;> simp [h]

theorem effects_selectedComplex (p r : AppState) :
    (runAfterRenderEffects p r).selectedComplex = r.selectedComplex := by
  rcases runAfterRenderEffects_eq p r with h | h <;> simp [h]

theorem effects_selectedUnitType (p r : AppState) :
    (runAfterRenderEffects p r).selectedUnitType = r.selectedUnitType := by
  rcases runAfterRenderEffects_eq p r with h | h <;> simp [h]

theorem effects_portfolios (p r : AppState) :
    (runAfterRenderEffects p r).portfolios = r.portfolios := by
  rcases runAfterRenderEffects_eq p r with h | h <;> simp [h]

theorem effects_filters (p r : AppState) :
    (runAfterRenderEffects p r).filters = r.filters := by
  rcases runAfterRenderEffects_eq p r with h | h <;> simp [h]

theorem effects_status (p r : AppState) :
    (runAfterRenderEffects p r).status = r.status := by
  rcases runAfterRenderEffects_eq p r with h | h <;> simp [h]

theorem effects_loadingMap (p r : AppState) :
    (runAfterRenderEffects p r).loadingMap = r.loadingMap := by
  rcases runAfterRenderEffects_eq p r with h | h <;> simp [h]

theorem effects_loadingPortfolios (p r : AppState) :
    (runAfterRenderEffects p r).loadingPortfolios = r.loadingPortfolios := by
  rcases runAfterRenderEffects_eq p r with h | h <;> simp [h]

theorem effects_mapMode (p r : AppState) :
    (runAfterRenderEffects p r).mapMode = r.mapMode := by
  rcases runAfterRenderEffects_eq p r with h | h <;> simp [h]

theorem effects_highlightList (p r : AppState) :
    (runAfterRenderEffects p r).highlightList = r.highlightList := by
  rcases runAfterRenderEffects_eq p r with h | h <;> simp [h]

theorem effects_userLocation (p r : AppState) :
    (runAfterRenderEffects p r).userLocation = r.userLocation := by
  rcases runAfterRenderEffects_eq p r with h | h <;> simp [h]

theorem effects_pinsGen (p r : AppState) :
    (runAfterRenderEffects p r).pinsGen = r.pinsGen := by
  rcases runAfterRenderEffects_eq p r with h | h <;> simp [h]

theorem effects_pinsReq (p r : AppState) :
    (runAfterRenderEffects p r).pinsReq = r.pinsReq := by
  rcases runAfterRenderEffects_eq p r with h | h <;> simp [h]

theorem effects_portfolioGen (p r : AppState) :
    (runAfterRenderEffects p r).portfolioGen = r.portfolioGen := by
  rcases runAfterRenderEffects_eq p r with h | h <;> simp [h]

theorem effects_portfolioReq (p r : AppState) :
    (runAfterRenderEffects p r).portfolioReq = r.portfolioReq := by
  rcases runAfterRenderEffects_eq p r with h | h <;> simp [h]

theorem effects_pendingDetail (p r : AppState) :
    (runAfterRenderEffects p r).pendingDetail = r.pendingDetail := by
  rcases runAfterRenderEffects_eq p r with h | h <;> simp [h]

theorem effects_nearbyPending (p r : AppState) :
    (runAfterRenderEffects p r).nearbyPending = r.nearbyPending := by
  rcases runAfterRenderEffects_eq p r with h | h <;> simp [h]

/-! ## Stale-response exclusion (claim C1) -/

theorem step_boundsChange (env : ApiEnv) (s : AppState) (b : BoundsQuery)
    (hmode : s.mapMode = MapMode.bounds) :
    (step env s (AppEvent.boundsChange b)).pinsReq =
      some ((step env s (AppEvent.boundsChange b)).pinsGen, b) ∧
    (step env s (AppEvent.boundsChange b)).mapMode = MapMode.bounds := by
  unfold step rawStep
  simp only [effects_pinsReq, effects_pinsGen, effects_mapMode]
  simp [triggerPinsEffect, hmode]

theorem boundsRun (env : ApiEnv) :
    ∀ (bs : List BoundsQuery) (b : BoundsQuery) (s : AppState),
      s.mapMode = MapMode.bounds →
      (runApp env s ((bs ++ [b]).map AppEvent.boundsChange)).pinsReq =
        some ((runApp env s ((bs ++ [b]).map AppEvent.boundsChange)).pinsGen, b) := by
  intro bs
  induction bs with
  | nil =>
    intro b s hmode
    exact (step_boundsChange env s b hmode).1
  | cons b0 rest ih =>
    intro b s hmode
    rw [List.cons_append, List.map_cons]
    exact ih b (step env s (AppEvent.boundsChange b0))
      (step_boundsChange env s b0 hmode).2

theorem pinsResolve_discard (env : ApiEnv) (s : AppState) (g : ℕ)
    (h : ∀ gq bq, s.pinsReq = some (gq, bq) → gq ≠ g) :
    step env s (AppEvent.pinsResolve g) = s := by
  unfold step rawStep
  cases hp : s.pinsReq with
  | none => rfl
  | some p =>
    obtain ⟨gq, bq⟩ := p
    simp [h gq bq hp]

theorem pinsResolve_commit (env : ApiEnv) (s : AppState) (g : ℕ) (b : BoundsQuery)
    (h : s.pinsReq = some (g, b)) :
    (step env s (AppEvent.pinsResolve g)).clusters = (env.mapPins b).clusters ∧
    (step env s (AppEvent.pinsResolve g)).complexes = (env.mapPins b).complexes ∧
    (step env s (AppEvent.pinsResolve g)).pinsReq = none := by
  unfold step rawStep
  rw [h]
  simp [effects_clusters, effects_complexes, effects_pinsReq]

theorem pinsResolveRun_done (env : ApiEnv) (gs : List ℕ) :
    ∀ s : AppState, s.pinsReq = none →
      runApp env s (gs.map AppEvent.pinsResolve) = s := by
  induction gs with
  | nil => intro s _; rfl
  | cons g rest ih =>
    intro s h
    have hd : step env s (AppEvent.pinsResolve g) = s :=
      pinsResolve_discard env s g (by intro gq bq hq; rw [h] at hq; cases hq)
    show runApp env (step env s (AppEvent.pinsResolve g)) (rest.map AppEvent.pinsResolve) = s
    rw [hd]
    exact ih s h

theorem pinsResolveRun (env : ApiEnv) (gs : List ℕ) :
    ∀ (s : AppState) (b : BoundsQuery),
      s.pinsReq = some (s.pinsGen, b) → s.pinsGen ∈ gs →
      (runApp env s (gs.map AppEvent.pinsResolve)).clusters =
        (env.mapPins b).clusters ∧
      (runApp env s (gs.map AppEvent.pinsResolve)).complexes =
        (env.mapPins b).complexes := by
  induction gs with
  | nil => intro s b _ hmem; cases hmem
  | cons g rest ih =>
    intro s b hreq hmem
    by_cases hg : s.pinsGen = g
    · have hc := pinsResolve_commit env s g b (hg ▸ hreq)
      have hdone := pinsResolveRun_done env rest
        (step env s (AppEvent.pinsResolve g)) hc.2.2
      constructor
      · show (runApp env (step env s (AppEvent.pinsResolve g))
            (rest.map AppEvent.pinsResolve)).clusters = _
        rw [hdone]
        exact hc.1
      · show (runApp env (step env s (AppEvent.pinsResolve g))
            (rest.map AppEvent.pinsResolve)).complexes = _
        rw [hdone]
        exact hc.2.1
    · have hd : step env s (AppEvent.pinsResolve g) = s := by
        apply pinsResolve_discard
        intro gq bq hq
        rw [hreq] at hq
        simp only [Option.some.injEq, Prod.mk.injEq] at hq
        intro he
        exact hg (hq.1.trans he)
      have hmem2 : s.pinsGen ∈ rest := by
        rcases List.mem_cons.mp hmem with h | h
        · exact absurd h hg
        · exact h
      have heq : runApp env s ((g :: rest).map AppEvent.pinsResolve) =
          runApp env s (rest.map AppEvent.pinsResolve) := by
        show runApp env (step env s (AppEvent.pinsResolve g))
          (rest.map AppEvent.pinsResolve) = _
        rw [hd]
      rw [heq]
      exact ih s b hreq hmem2

theorem step_setFilters (env : ApiEnv) (s : AppState) (f : PortfolioFilters)
    (d : ComplexDetailResponse) (u : UnitTypeChip)
    (hc : s.selectedComplex = some d) (hu : s.selectedUnitType = some u) :
    (step env s (AppEvent.setFilters f)).portfolioReq =
      some ((step env s (AppEvent.setFilters f)).portfolioGen,
        d.complex_id, u.unit_type_id, f) ∧
    (step env s (AppEvent.setFilters f)).selectedComplex = some d ∧
    (step env s (AppEvent.setFilters f)).selectedUnitType = some u := by
  unfold step rawStep
  simp only [effects_portfolioReq, effects_portfolioGen, effects_selectedComplex,
    effects_selectedUnitType]
  simp [triggerPortfolioEffect, hc, hu]

theorem filtersRun (env : ApiEnv) :
    ∀ (fs : List PortfolioFilters) (f : PortfolioFilters) (s : AppState)
      (d : ComplexDetailResponse) (u : UnitTypeChip),
      s.selectedComplex = some d → s.selectedUnitType = some u →
      (runApp env s ((fs ++ [f]).map AppEvent.setFilters)).portfolioReq =
        some ((runApp env s ((fs ++ [f]).map AppEvent.setFilters)).portfolioGen,
          d.complex_id, u.unit_type_id, f) := by
  intro fs
  induction fs with
  | nil =>
    intro f s d u hc hu
    exact (step_setFilters env s f d u hc hu).1
  | cons f0 rest ih =>
    intro f s d u hc hu
    rw [List.cons_append, List.map_cons]
    have hstep := step_setFilters env s f0 d u hc hu
    exact ih f (step env s (AppEvent.setFilters f0)) d u hstep.2.1 hstep.2.2

theorem portfolioResolve_discard (env : ApiEnv) (s : AppState) (g : ℕ)
    (h : ∀ gq c uid fq, s.portfolioReq = some (gq, c, uid, fq) → gq ≠ g) :
    step env s (AppEvent.portfolioResolve g) = s := by
  unfold step rawStep
  cases hp : s.portfolioReq with
  | none => rfl
  | some p =>
    obtain ⟨gq, c, uid, fq⟩ := p
    simp [h gq c uid fq hp]

theorem portfolioResolve_commit (env : ApiEnv) (s : AppState) (g c uid : ℕ)
    (fq : PortfolioFilters) (h : s.portfolioReq = some (g, c, uid, fq)) :
    (step env s (AppEvent.portfolioResolve g)).portfolios =
      (env.portfolios c uid fq).items ∧
    (step env s (AppEvent.portfolioResolve g)).portfolioReq = none := by
  unfold step rawStep
  rw [h]
  simp [effects_portfolios, effects_portfolioReq]

theorem portfolioResolveRun_done (env : ApiEnv) (gs : List ℕ) :
    ∀ s : AppState, s.portfolioReq = none →
      runApp env s (gs.map AppEvent.portfolioResolve) = s := by
  induction gs with
  | nil => intro s _; rfl
  | cons g rest ih =>
    intro s h
    have hd : step env s (AppEvent.portfolioResolve g) = s :=
      portfolioResolve_discard env s g
        (by intro gq c uid fq hq; rw [h] at hq; cases hq)
    show runApp env (step env s (AppEvent.portfolioResolve g))
      (rest.map AppEvent.portfolioResolve) = s
    rw [hd]
    exact ih s h

theorem portfolioResolveRun (env : ApiEnv) (gs : List ℕ) :
    ∀ (s : AppState) (c uid : ℕ) (fq : PortfolioFilters),
      s.portfolioReq = some (s.portfolioGen, c, uid, fq) →
      s.portfolioGen ∈ gs →
      (runApp env s (gs.map AppEvent.portfolioResolve)).portfolios =
        (env.portfolios c uid fq).items := by
  induction gs with
  | nil => intro s c uid fq _ hmem; cases hmem
  | cons g rest ih =>
    intro s c uid fq hreq hmem
    by_cases hg : s.portfolioGen = g
    · have hcom := portfolioResolve_commit env s g c uid fq (hg ▸ hreq)
      have hdone := portfolioResolveRun_done env rest
        (step env s (AppEvent.portfolioResolve g)) hcom.2
      show (runApp env (step env s (AppEvent.portfolioResolve g))
          (rest.map AppEvent.portfolioResolve)).portfolios = _
      rw [hdone]
      exact hcom.1
    · have hd : step env s (AppEvent.portfolioResolve g) = s := by
        apply portfolioResolve_discard
        intro gq c2 uid2 fq2 hq
        rw [hreq] at hq
        simp only [Option.some.injEq, Prod.mk.injEq] at hq
        intro he
        exact hg (hq.1.trans he)
      have hmem2 : s.portfolioGen ∈ rest := by
        rcases List.mem_cons.mp hmem with h | h
        · exact absurd h hg
        · exact h
      show (runApp env (step env s (AppEvent.portfolioResolve g))
          (rest.map AppEvent.portfolioResolve)).portfolios = _
      rw [hd]
      exact ih s c uid fq hreq hmem2

/-- C1: for every sequence of viewport (bounds) changes that each
re-run the map-pins effect, and for every sequence of filter changes
that each issue a portfolio fetch (from a state with a selected complex
and unit type), once the responses arrive — in any order, and whichever
generations respond — as long as the last-issued request's response
arrives, the rendered state (clusters, complexes, portfolio list) is
exactly the result of the most recently issued fetch; and a response
whose generation has been superseded (its `cancelled` flag set) is
discarded without any state change. -/
theorem c1_stale_response_exclusion (env : ApiEnv) (s : AppState)
    (b : BoundsQuery) (bs : List BoundsQuery)
    (f : PortfolioFilters) (fs : List PortfolioFilters)
    (gs hs : List ℕ) (g g2 : ℕ)
    (d : ComplexDetailResponse) (u : UnitTypeChip)
    (hmode : s.mapMode = MapMode.bounds)
    (hc : s.selectedComplex = some d)
    (hu : s.selectedUnitType = some u)
    (hg : (runApp env s ((bs ++ [b]).map AppEvent.boundsChange)).pinsGen ∈ gs)
    (hg2 : (runApp env s ((fs ++ [f]).map AppEvent.setFilters)).portfolioGen ∈ hs)
    (hstale : ∀ gq bq, s.pinsReq = some (gq, bq) → gq ≠ g)
    (hstale2 : ∀ gq c uid fq, s.portfolioReq = some (gq, c, uid, fq) → gq ≠ g2) :
    (runApp env (runApp env s ((bs ++ [b]).map AppEvent.boundsChange))
        (gs.map AppEvent.pinsResolve)).clusters = (env.mapPins b).clusters ∧
    (runApp env (runApp env s ((bs ++ [b]).map AppEvent.boundsChange))
        (gs.map AppEvent.pinsResolve)).complexes = (env.mapPins b).complexes ∧
    (runApp env (runApp env s ((fs ++ [f]).map AppEvent.setFilters))
        (hs.map AppEvent.portfolioResolve)).portfolios =
      (env.portfolios d.complex_id u.unit_type_id f).items ∧
    step env s (AppEvent.pinsResolve g) = s ∧
    step env s (AppEvent.portfolioResolve g2) = s := by
  refine ⟨?_, ?_, ?_, pinsResolve_discard env s g hstale,
    portfolioResolve_discard env s g2 hstale2⟩
  · exact (pinsResolveRun env gs _ b (boundsRun env bs b s hmode) hg).1
  · exact (pinsResolveRun env gs _ b (boundsRun env bs b s hmode) hg).2
  · exact portfolioResolveRun env hs _ d.complex_id u.unit_type_id f
      (filtersRun env fs f s d u hc hu) hg2

/-! ## A concrete demo collaborator and states for witnesses and
counterexamples -/

/-- A cluster pin returned for the first demo viewport. -/
def demoCluster : ClusterPin :=
  { cluster_key := "k1", center_latitude := 37, center_longitude := 127,
    count := 4 }

/-- A complex pin returned for the first demo viewport. -/
def demoComplexPinA : ComplexPin :=
  { complex_id := 1, name := "A", latitude := 37, longitude := 127,
    portfolio_count := 2, distance_m := none }

/-- A complex pin returned for the second demo viewport. -/
def demoComplexPinB : ComplexPin :=
  { complex_id := 2, name := "B", latitude := 38, longitude := 128,
    portfolio_count := 1, distance_m := none }

/-- The complex pin returned by the demo nearby endpoint. -/
def demoNearbyPin : ComplexPin :=
  { complex_id := 9, name := "N", latitude := 36, longitude := 126,
    portfolio_count := 3, distance_m := some 250 }

/-- A featureless demo portfolio card with the given id. -/
def demoCard (pid : ℕ) : PortfolioCard :=
  { portfolio_id := pid, title := "card", before_image_url := none,
    after_image_url := none, floor_plan_before_x := none,
    floor_plan_before_y := none, floor_plan_after_x := none,
    floor_plan_after_y := none, floor_plan_pins := none,
    work_scope := "kitchen", style := "modern", vendor_id := none }

/-- A demo unit type with the given id. -/
def demoUnit (uid : ℕ) : UnitTypeChip :=
  { unit_type_id := uid, exclusive_area_m2 := 59, type_code := none,
    structure_keyword := none, floor_plan_image_url := none,
    portfolio_count := 1 }

/-- A demo viewport. -/
def demoBounds1 : BoundsQuery :=
  { south := 1, west := 2, north := 3, east := 4, zoom := 10 }

/-- Another demo viewport. -/
def demoBounds2 : BoundsQuery :=
  { south := 5, west := 6, north := 7, east := 8, zoom := 11 }

/-- A demo filter object distinct from `DEFAULT_FILTERS`. -/
def demoFiltersB : PortfolioFilters :=
  { DEFAULT_FILTERS with budget_max_krw := some 100 }

/-- The demo collaborator: complex 1 has unit type 11 (portfolio list
`[demoCard 5]`), every other complex has unit type 22 (portfolio list
`[demoCard 9]`); the first demo viewport shows a cluster and complex A,
every other viewport shows only complex B. -/
def demoEnv : ApiEnv :=
  { mapPins := fun b =>
      if b.south = 1 then
        { clusters := [demoCluster], complexes := [demoComplexPinA] }
      else { clusters := [], complexes := [demoComplexPinB] },
    nearbyComplexes := fun _ _ _ => [demoNearbyPin],
    complexDetail := fun cid =>
      if cid = 1 then
        { complex_id := 1, name := "A", address := "a1",
          unit_types := [demoUnit 11] }
      else
        { complex_id := cid, name := "B", address := "b1",
          unit_types := [demoUnit 22] },
    portfolios := fun cid uid _ =>
      if cid = 1 ∧ uid = 11 then { items := [demoCard 5], total := 1 }
      else { items := [demoCard 9], total := 1 } }

/-- The C1 witness start state: complex 1 selected (unit type 11
auto-selected), its portfolio list committed, then one bounds change
and one filter change leaving one live request in each pipeline. -/
def c1state : AppState :=
  runApp demoEnv mkInit
    [AppEvent.selectComplexStart 1 false, AppEvent.selectComplexResolve 1 false,
     AppEvent.portfolioResolve 1, AppEvent.boundsChange demoBounds1,
     AppEvent.setFilters DEFAULT_FILTERS]

/-- Witness for C1: two further bounds triggers and two further filter
triggers; the response of the superseded generation arrives first and
is discarded, the last-issued responses win; a stale response against
the start state changes nothing. -/
theorem c1_witness :
    (runApp demoEnv (runApp demoEnv c1state
        (([demoBounds1] ++ [demoBounds2]).map AppEvent.boundsChange))
        ([2, 3].map AppEvent.pinsResolve)).clusters =
      (demoEnv.mapPins demoBounds2).clusters ∧
    (runApp demoEnv (runApp demoEnv c1state
        (([demoBounds1] ++ [demoBounds2]).map AppEvent.boundsChange))
        ([2, 3].map AppEvent.pinsResolve)).complexes =
      (demoEnv.mapPins demoBounds2).complexes ∧
    (runApp demoEnv (runApp demoEnv c1state
        (([DEFAULT_FILTERS] ++ [demoFiltersB]).map AppEvent.setFilters))
        ([3, 4].map AppEvent.portfolioResolve)).portfolios =
      (demoEnv.portfolios (demoEnv.complexDetail 1).complex_id
        (demoUnit 11).unit_type_id demoFiltersB).items ∧
    step demoEnv c1state (AppEvent.pinsResolve 99) = c1state ∧
    step demoEnv c1state (AppEvent.portfolioResolve 88) = c1state :=
  c1_stale_response_exclusion demoEnv c1state demoBounds2 [demoBounds1]
    demoFiltersB [DEFAULT_FILTERS] [2, 3] [3, 4] 99 88
    (demoEnv.complexDetail 1) (demoUnit 11)
    (by decide) (by decide) (by decide) (by decide) (by decide)
    (by
      intro gq bq h
      have hreq : c1state.pinsReq = some (1, demoBounds1) := by decide
      rw [hreq] at h
      simp only [Option.some.injEq, Prod.mk.injEq] at h
      omega)
    (by
      intro gq c uid fq h
      have hreq : c1state.portfolioReq =
          some (2, 1, 11, DEFAULT_FILTERS) := by decide
      rw [hreq] at h
      simp only [Option.some.injEq, Prod.mk.injEq] at h
      omega)

/-! ## Cascade reset (claim C4) -/

theorem triggerPins_sel (s : AppState) :
    (triggerPinsEffect s).selectedPinnedPortfolioId =
      s.selectedPinnedPortfolioId ∧
    (triggerPinsEffect s).selectedUnitType = s.selectedUnitType ∧
    (triggerPinsEffect s).selectedComplex = s.selectedComplex ∧
    (triggerPinsEffect s).portfolios = s.portfolios := by
  unfold triggerPinsEffect
  dsimp only
  split <;> exact ⟨rfl, rfl, rfl, rfl⟩

theorem triggerPortfolio_sel (s : AppState) :
    (triggerPortfolioEffect s).selectedPinnedPortfolioId =
      s.selectedPinnedPortfolioId ∧
    (triggerPortfolioEffect s).selectedUnitType = s.selectedUnitType ∧
    (triggerPortfolioEffect s).selectedComplex = s.selectedComplex ∧
    (triggerPortfolioEffect s).portfolios = s.portfolios := by
  unfold triggerPortfolioEffect
  cases hc : s.selectedComplex <;> cases hu : s.selectedUnitType <;>
    exact ⟨rfl, rfl, rfl, rfl⟩

/-- If a commit does not change `selectedUnitType?.unit_type_id` and
the (unchanged) pinned selection is still in the committed portfolio
list, the reconciliation effects change nothing. -/
theorem effects_noop (p r : AppState)
    (hu : r.selectedUnitType = p.selectedUnitType)
    (hpin : ∀ pid, r.selectedPinnedPortfolioId = some pid →
      r.portfolios.any (fun c => c.portfolio_id == pid) = true) :
    runAfterRenderEffects p r = r := by
  unfold runAfterRenderEffects applyUnitChangeCleanup
  rw [hu, if_pos rfl]
  unfold applyPinnedCleanup
  cases hp : r.selectedPinnedPortfolioId with
  | none => rfl
  | some pid => simp [hpin pid hp]

/-- If a commit changes `selectedUnitType?.unit_type_id`, the
reconciliation effects clear `selectedPinnedPortfolioId`. -/
theorem effects_pinned_of_unit_change (p r : AppState)
    (hne : r.selectedUnitType.map (fun u => u.unit_type_id) ≠
      p.selectedUnitType.map (fun u => u.unit_type_id)) :
    (runAfterRenderEffects p r).selectedPinnedPortfolioId = none := by
  unfold runAfterRenderEffects applyUnitChangeCleanup
  rw [if_neg hne]
  unfold applyPinnedCleanup
  simp

theorem step_selectComplexStart (env : ApiEnv) (s : AppState) (cid : ℕ)
    (fm : Bool)
    (hpin : ∀ pid, s.selectedPinnedPortfolioId = some pid →
      s.portfolios.any (fun c => c.portfolio_id == pid) = true) :
    step env s (AppEvent.selectComplexStart cid fm) =
      { s with status := "단지 정보를 불러오는 중입니다.",
               pendingDetail := (cid, fm) :: s.pendingDetail } := by
  unfold step rawStep
  exact effects_noop s _ rfl hpin

theorem step_selectComplexResolve_sel (env : ApiEnv) (s : AppState) (cid : ℕ)
    (fm : Bool) (hmem : (cid, fm) ∈ s.pendingDetail)
    (hne : ((env.complexDetail cid).unit_types.head?).map
        (fun u => u.unit_type_id) ≠
      s.selectedUnitType.map (fun u => u.unit_type_id)) :
    (step env s (AppEvent.selectComplexResolve cid fm)).selectedComplex =
      some (env.complexDetail cid) ∧
    (step env s (AppEvent.selectComplexResolve cid fm)).selectedUnitType =
      (env.complexDetail cid).unit_types.head? ∧
    (step env s
        (AppEvent.selectComplexResolve cid fm)).selectedPinnedPortfolioId =
      none := by
  simp only [step, rawStep]
  rw [if_pos hmem]
  dsimp only
  have hsel : ∀ s3 : AppState,
      s3.selectedComplex = some (env.complexDetail cid) →
      s3.selectedUnitType = (env.complexDetail cid).unit_types.head? →
      (runAfterRenderEffects s (triggerPortfolioEffect s3)).selectedComplex =
        some (env.complexDetail cid) ∧
      (runAfterRenderEffects s (triggerPortfolioEffect s3)).selectedUnitType =
        (env.complexDetail cid).unit_types.head? ∧
      (runAfterRenderEffects s
          (triggerPortfolioEffect s3)).selectedPinnedPortfolioId = none := by
    intro s3 h1 h2
    refine ⟨?_, ?_, ?_⟩
    · rw [effects_selectedComplex, (triggerPortfolio_sel s3).2.2.1, h1]
    · rw [effects_selectedUnitType, (triggerPortfolio_sel s3).2.1, h2]
    · apply effects_pinned_of_unit_change
      rw [(triggerPortfolio_sel s3).2.1, h2]
      exact hne
  apply hsel
  · split <;> split <;> rfl
  · split <;> split <;> rfl

/-- The C4 start state: complex 1 selected (unit type 11), portfolio
list `[demoCard 5]` committed, portfolio 5 pinned. -/
def c4state : AppState :=
  runApp demoEnv mkInit
    [AppEvent.selectComplexStart 1 false, AppEvent.selectComplexResolve 1 false,
     AppEvent.portfolioResolve 1, AppEvent.pinSelect 5]

/-- Counterexample to C4 as stated: with complex 1 / unit type 11 /
portfolio 5 selected and pinned, issuing the selection of complex 2
changes no descendant selection state before the detail fetch resolves
(only the status and the pending-fetch list change), and when the fetch
does resolve `selectedUnitType` becomes complex 2's first unit type —
not `null`. -/
theorem c4_counterexample :
    c4state.selectedUnitType = some (demoUnit 11) ∧
    c4state.selectedPinnedPortfolioId = some 5 ∧
    (runApp demoEnv c4state
        [AppEvent.selectComplexStart 2 false]).selectedUnitType =
      some (demoUnit 11) ∧
    (runApp demoEnv c4state
        [AppEvent.selectComplexStart 2 false]).selectedPinnedPortfolioId =
      some 5 ∧
    (runApp demoEnv c4state
        [AppEvent.selectComplexStart 2 false]).pendingDetail = [(2, false)] ∧
    (runApp demoEnv c4state
        [AppEvent.selectComplexStart 2 false,
         AppEvent.selectComplexResolve 2 false]).selectedUnitType =
      some (demoUnit 22) := by
  decide

/-- C4, amended: issuing the selection of a different complex C2
changes no selection state before C2's detail fetch resolves (only the
status message and the pending-fetch bookkeeping change); when the
detail fetch resolves, `selectedComplex` becomes C2's detail,
`selectedUnitType` becomes C2's first unit type (`none` only when C2
has no unit types), and — because the unit-type id changes —
`selectedPinnedPortfolioId` is cleared by the reconciliation effect. -/
theorem c4_cascade_reset_amended (env : ApiEnv) (s : AppState) (cid : ℕ)
    (fm : Bool)
    (hpin : ∀ pid, s.selectedPinnedPortfolioId = some pid →
      s.portfolios.any (fun c => c.portfolio_id == pid) = true)
    (hne : ((env.complexDetail cid).unit_types.head?).map
        (fun u => u.unit_type_id) ≠
      s.selectedUnitType.map (fun u => u.unit_type_id)) :
    (step env s (AppEvent.selectComplexStart cid fm)).selectedComplex =
      s.selectedComplex ∧
    (step env s (AppEvent.selectComplexStart cid fm)).selectedUnitType =
      s.selectedUnitType ∧
    (step env s
        (AppEvent.selectComplexStart cid fm)).selectedPinnedPortfolioId =
      s.selectedPinnedPortfolioId ∧
    (step env s (AppEvent.selectComplexStart cid fm)).portfolios =
      s.portfolios ∧
    (step env (step env s (AppEvent.selectComplexStart cid fm))
        (AppEvent.selectComplexResolve cid fm)).selectedComplex =
      some (env.complexDetail cid) ∧
    (step env (step env s (AppEvent.selectComplexStart cid fm))
        (AppEvent.selectComplexResolve cid fm)).selectedUnitType =
      (env.complexDetail cid).unit_types.head? ∧
    (step env (step env s (AppEvent.selectComplexStart cid fm))
        (AppEvent.selectComplexResolve cid fm)).selectedPinnedPortfolioId =
      none := by
  have hs1 := step_selectComplexStart env s cid fm hpin
  have hmem : (cid, fm) ∈
      (step env s (AppEvent.selectComplexStart cid fm)).pendingDetail := by
    rw [hs1]
    exact List.mem_cons_self _ _
  have hne1 : ((env.complexDetail cid).unit_types.head?).map
      (fun u => u.unit_type_id) ≠
      (step env s (AppEvent.selectComplexStart cid fm)).selectedUnitType.map
        (fun u => u.unit_type_id) := by
    rw [hs1]
    exact hne
  have h2 := step_selectComplexResolve_sel env
    (step env s (AppEvent.selectComplexStart cid fm)) cid fm hmem hne1
  refine ⟨?_, ?_, ?_, ?_, h2.1, h2.2.1, h2.2.2⟩ <;> rw [hs1]

/-- Witness for the amended C4: complex 1 / unit 11 / pinned portfolio
5 selected; selecting complex 2. -/
theorem c4_witness :
    (step demoEnv c4state (AppEvent.selectComplexStart 2 false)).selectedComplex =
      c4state.selectedComplex ∧
    (step demoEnv c4state (AppEvent.selectComplexStart 2 false)).selectedUnitType =
      c4state.selectedUnitType ∧
    (step demoEnv c4state
        (AppEvent.selectComplexStart 2 false)).selectedPinnedPortfolioId =
      c4state.selectedPinnedPortfolioId ∧
    (step demoEnv c4state (AppEvent.selectComplexStart 2 false)).portfolios =
      c4state.portfolios ∧
    (step demoEnv (step demoEnv c4state (AppEvent.selectComplexStart 2 false))
        (AppEvent.selectComplexResolve 2 false)).selectedComplex =
      some (demoEnv.complexDetail 2) ∧
    (step demoEnv (step demoEnv c4state (AppEvent.selectComplexStart 2 false))
        (AppEvent.selectComplexResolve 2 false)).selectedUnitType =
      (demoEnv.complexDetail 2).unit_types.head? ∧
    (step demoEnv (step demoEnv c4state (AppEvent.selectComplexStart 2 false))
        (AppEvent.selectComplexResolve 2 false)).selectedPinnedPortfolioId =
      none :=
  c4_cascade_reset_amended demoEnv c4state 2 false
    (by
      intro pid h
      have h5 : c4state.selectedPinnedPortfolioId = some 5 := by decide
      rw [h5] at h
      have h6 := Option.some.inj h
      subst h6
      decide)
    (by decide)

/-! ## Mode exclusivity (claim C2) -/

/-- The events that belong to the bounds-mode pins pipeline. -/
def isBoundsPipelineEvent : AppEvent → Bool
  | AppEvent.pinsResolve _ => true
  | AppEvent.pinsFail _ _ => true
  | AppEvent.boundsChange _ => true
  | _ => false

/-- A state with a pending bounds fetch (generation 1 for
`demoBounds1`) in which the user has just triggered a successful
geolocation, so a nearby fetch is outstanding while the mode is still
`bounds`. -/
def c2state : AppState :=
  runApp demoEnv mkInit
    [AppEvent.boundsChange demoBounds1, AppEvent.nearbyStart 36 126]

/-- Counterexample to C2 as stated: with bounds fetch A (generation 1)
pending and the nearby fetch already issued, A's response still commits
and is displayed (clusters/complexes become A's data — the bounds-mode
results are not cleared before the nearby fetch resolves); only when
the nearby response arrives are the clusters cleared and the
nearby items shown. -/
theorem c2_counterexample :
    c2state.mapMode = MapMode.bounds ∧
    c2state.nearbyPending = [(36, 126, 3000)] ∧
    c2state.pinsReq = some (1, demoBounds1) ∧
    (runApp demoEnv c2state [AppEvent.pinsResolve 1]).clusters =
      [demoCluster] ∧
    (runApp demoEnv c2state [AppEvent.pinsResolve 1]).complexes =
      [demoComplexPinA] ∧
    (runApp demoEnv c2state
        [AppEvent.pinsResolve 1,
         AppEvent.nearbyResolve 36 126 3000]).mapMode = MapMode.nearby ∧
    (runApp demoEnv c2state
        [AppEvent.pinsResolve 1,
         AppEvent.nearbyResolve 36 126 3000]).clusters = [] ∧
    (runApp demoEnv c2state
        [AppEvent.pinsResolve 1,
         AppEvent.nearbyResolve 36 126 3000]).complexes = [demoNearbyPin] := by
  decide

theorem nearbyResolve_commit (env : ApiEnv) (s : AppState) (lat lng radius : ℚ)
    (hmode : s.mapMode = MapMode.bounds)
    (hp : (lat, lng, radius) ∈ s.nearbyPending) :
    (step env s (AppEvent.nearbyResolve lat lng radius)).mapMode =
      MapMode.nearby ∧
    (step env s (AppEvent.nearbyResolve lat lng radius)).clusters = [] ∧
    (step env s (AppEvent.nearbyResolve lat lng radius)).complexes =
      env.nearbyComplexes lat lng radius ∧
    (step env s (AppEvent.nearbyResolve lat lng radius)).pinsReq = none := by
  simp only [step, rawStep]
  rw [if_pos hp, if_pos hmode]
  refine ⟨?_, ?_, ?_, ?_⟩ <;>
    simp [triggerPinsEffect, effects_mapMode, effects_clusters,
      effects_complexes, effects_pinsReq]

theorem nearbyLockRun (env : ApiEnv) (evs : List AppEvent) :
    ∀ s : AppState, (∀ e ∈ evs, isBoundsPipelineEvent e = true) →
      s.mapMode = MapMode.nearby → s.pinsReq = none →
      (runApp env s evs).mapMode = MapMode.nearby ∧
      (runApp env s evs).clusters = s.clusters ∧
      (runApp env s evs).complexes = s.complexes ∧
      (runApp env s evs).pinsReq = none := by
  induction evs with
  | nil => intro s _ h1 h2; exact ⟨h1, rfl, rfl, h2⟩
  | cons e rest ih =>
    intro s hall h1 h2
    have he := hall e (List.mem_cons_self e rest)
    have hstep : (step env s e).mapMode = MapMode.nearby ∧
        (step env s e).clusters = s.clusters ∧
        (step env s e).complexes = s.complexes ∧
        (step env s e).pinsReq = none := by
      cases e with
      | boundsChange b =>
        simp only [step, rawStep]
        refine ⟨?_, ?_, ?_, ?_⟩ <;>
          simp [triggerPinsEffect, h1, effects_mapMode, effects_clusters,
            effects_complexes, effects_pinsReq]
      | pinsResolve g =>
        have hd : step env s (AppEvent.pinsResolve g) = s :=
          pinsResolve_discard env s g
            (by intro gq bq hq; rw [h2] at hq; cases hq)
        rw [hd]
        exact ⟨h1, rfl, rfl, h2⟩
      | pinsFail g msg =>
        have hd : step env s (AppEvent.pinsFail g msg) = s := by
          simp only [step, rawStep]
          rw [h2]
        rw [hd]
        exact ⟨h1, rfl, rfl, h2⟩
      | _ => simp [isBoundsPipelineEvent] at he
    have hrest := ih (step env s e)
      (fun e2 h => hall e2 (List.mem_cons_of_mem e h)) hstep.1 hstep.2.2.2
    exact ⟨hrest.1, hrest.2.1.trans hstep.2.1, hrest.2.2.1.trans hstep.2.2.1,
      hrest.2.2.2⟩

/-- C2, amended: an in-flight bounds fetch is cancelled by a bounds or
mode change only, so its response may still be displayed while the
nearby fetch is in flight; the mode switch itself, the clearing of the
bounds-mode clusters, and the display of the nearby items are committed
together when the nearby fetch resolves, and from that commit on —
whatever bounds-pipeline events (pans, stale responses, failures)
arrive — the rendered result remains exactly the nearby-mode result and
every bounds response is discarded. -/
theorem c2_mode_switch_amended (env : ApiEnv) (s : AppState)
    (lat lng radius : ℚ) (evs : List AppEvent)
    (hmode : s.mapMode = MapMode.bounds)
    (hp : (lat, lng, radius) ∈ s.nearbyPending)
    (hevs : ∀ e ∈ evs, isBoundsPipelineEvent e = true) :
    (step env s (AppEvent.nearbyResolve lat lng radius)).mapMode =
      MapMode.nearby ∧
    (step env s (AppEvent.nearbyResolve lat lng radius)).clusters = [] ∧
    (step env s (AppEvent.nearbyResolve lat lng radius)).complexes =
      env.nearbyComplexes lat lng radius ∧
    (runApp env (step env s (AppEvent.nearbyResolve lat lng radius))
        evs).mapMode = MapMode.nearby ∧
    (runApp env (step env s (AppEvent.nearbyResolve lat lng radius))
        evs).clusters = [] ∧
    (runApp env (step env s (AppEvent.nearbyResolve lat lng radius))
        evs).complexes = env.nearbyComplexes lat lng radius := by
  have hc := nearbyResolve_commit env s lat lng radius hmode hp
  have hl := nearbyLockRun env evs
    (step env s (AppEvent.nearbyResolve lat lng radius)) hevs hc.1 hc.2.2.2
  exact ⟨hc.1, hc.2.1, hc.2.2.1, hl.1, hl.2.1.trans hc.2.1,
    hl.2.2.1.trans hc.2.2.1⟩

/-- Witness for the amended C2: after the nearby commit, a stale bounds
response, a pan and its response, and a failure all leave the
nearby-mode result in place. -/
theorem c2_witness :
    (step demoEnv c2state (AppEvent.nearbyResolve 36 126 3000)).mapMode =
      MapMode.nearby ∧
    (step demoEnv c2state (AppEvent.nearbyResolve 36 126 3000)).clusters = [] ∧
    (step demoEnv c2state (AppEvent.nearbyResolve 36 126 3000)).complexes =
      demoEnv.nearbyComplexes 36 126 3000 ∧
    (runApp demoEnv (step demoEnv c2state (AppEvent.nearbyResolve 36 126 3000))
        [AppEvent.pinsResolve 1, AppEvent.boundsChange demoBounds2,
         AppEvent.pinsResolve 2, AppEvent.pinsFail 2 "err"]).mapMode =
      MapMode.nearby ∧
    (runApp demoEnv (step demoEnv c2state (AppEvent.nearbyResolve 36 126 3000))
        [AppEvent.pinsResolve 1, AppEvent.boundsChange demoBounds2,
         AppEvent.pinsResolve 2, AppEvent.pinsFail 2 "err"]).clusters = [] ∧
    (runApp demoEnv (step demoEnv c2state (AppEvent.nearbyResolve 36 126 3000))
        [AppEvent.pinsResolve 1, AppEvent.boundsChange demoBounds2,
         AppEvent.pinsResolve 2, AppEvent.pinsFail 2 "err"]).complexes =
      demoEnv.nearbyComplexes 36 126 3000 :=
  c2_mode_switch_amended demoEnv c2state 36 126 3000
    [AppEvent.pinsResolve 1, AppEvent.boundsChange demoBounds2,
     AppEvent.pinsResolve 2, AppEvent.pinsFail 2 "err"]
    (by decide) (by decide) (by decide)

/-! ## Selection containment (claim C3) -/

/-- The selection-containment invariant the engine actually maintains:
a pinned portfolio is always in the currently displayed list and
implies a selected unit type, and a selected unit type implies a
selected complex. -/
def SelectionInv (s : AppState) : Prop :=
  (∀ pid, s.selectedPinnedPortfolioId = some pid →
    s.portfolios.any (fun c => c.portfolio_id == pid) = true ∧
    s.selectedUnitType.isSome = true) ∧
  (s.selectedUnitType.isSome = true → s.selectedComplex.isSome = true)

theorem applyPinnedCleanup_post (s : AppState) (pid : ℕ)
    (h : (applyPinnedCleanup s).selectedPinnedPortfolioId = some pid) :
    (applyPinnedCleanup s).portfolios.any (fun c => c.portfolio_id == pid) =
      true ∧
    s.selectedPinnedPortfolioId = some pid := by
  unfold applyPinnedCleanup at h ⊢
  cases hp : s.selectedPinnedPortfolioId with
  | none =>
    simp only [hp] at h
    exact absurd h (by simp)
  | some q =>
    simp only [hp] at h ⊢
    by_cases hq : s.portfolios.any (fun c => c.portfolio_id == q) = true
    · rw [if_pos hq] at h ⊢
      have hqp : q = pid := Option.some.inj (hp.symm.trans h)
      subst hqp
      exact ⟨hq, rfl⟩
    · rw [if_neg hq] at h
      exact absurd h (by simp)

theorem applyUnitChangeCleanup_cases (a b : Option ℕ) (s : AppState) (pid : ℕ)
    (h : (applyUnitChangeCleanup a b s).selectedPinnedPortfolioId = some pid) :
    b = a ∧ s.selectedPinnedPortfolioId = some pid := by
  unfold applyUnitChangeCleanup at h
  by_cases hba : b = a
  · rw [if_pos hba] at h
    exact ⟨hba, h⟩
  · rw [if_neg hba] at h
    exact absurd h (by simp)

theorem selectionInv_step_of (s r : AppState)
    (hH1 : ∀ pid, r.selectedPinnedPortfolioId = some pid →
      r.selectedUnitType.map (fun u => u.unit_type_id) =
        s.selectedUnitType.map (fun u => u.unit_type_id) →
      r.selectedUnitType.isSome = true)
    (hH2 : r.selectedUnitType.isSome = true →
      r.selectedComplex.isSome = true) :
    SelectionInv (runAfterRenderEffects s r) := by
  constructor
  · intro pid hx
    have hx2 : (applyPinnedCleanup
        (applyUnitChangeCleanup
          (s.selectedUnitType.map (fun u => u.unit_type_id))
          (r.selectedUnitType.map (fun u => u.unit_type_id))
          r)).selectedPinnedPortfolioId = some pid := hx
    have hpost := applyPinnedCleanup_post
      (applyUnitChangeCleanup (s.selectedUnitType.map (fun u => u.unit_type_id))
        (r.selectedUnitType.map (fun u => u.unit_type_id)) r) pid hx2
    have hcases := applyUnitChangeCleanup_cases _ _ r pid hpost.2
    have hunit : r.selectedUnitType.isSome = true :=
      hH1 pid hcases.2 hcases.1
    refine ⟨hpost.1, ?_⟩
    rw [effects_selectedUnitType]
    exact hunit
  · intro hu
    rw [effects_selectedUnitType] at hu
    rw [effects_selectedComplex]
    exact hH2 hu

theorem selectionInv_step_of_same (s r : AppState)
    (hpin : r.selectedPinnedPortfolioId = s.selectedPinnedPortfolioId)
    (hu : r.selectedUnitType = s.selectedUnitType)
    (hcx : r.selectedComplex = s.selectedComplex)
    (hinv : SelectionInv s) :
    SelectionInv (runAfterRenderEffects s r) := by
  apply selectionInv_step_of
  · intro pid hp _
    rw [hpin] at hp
    rw [hu]
    exact (hinv.1 pid hp).2
  · rw [hu, hcx]
    exact hinv.2

theorem isSome_of_map_eq (a b : Option UnitTypeChip)
    (hids : a.map (fun u => u.unit_type_id) =
      b.map (fun u => u.unit_type_id))
    (hb : b.isSome = true) : a.isSome = true := by
  cases a <;> cases b <;> simp_all

theorem selectionInv_step (env : ApiEnv) (s : AppState) (e : AppEvent)
    (hinv : SelectionInv s) : SelectionInv (step env s e) := by
  cases hr : rawStep env s e with
  | none =>
    have hs : step env s e = s := by simp [step, hr]
    rw [hs]
    exact hinv
  | some r =>
    have hs : step env s e = runAfterRenderEffects s r := by simp [step, hr]
    rw [hs]
    clear hs
    cases e with
    | boundsChange b =>
      simp only [rawStep, Option.some.injEq] at hr
      subst hr
      exact selectionInv_step_of_same s _ (triggerPins_sel _).1
        (triggerPins_sel _).2.1 (triggerPins_sel _).2.2.1 hinv
    | pinsResolve g =>
      simp only [rawStep] at hr
      cases hp : s.pinsReq with
      | none => simp [hp] at hr
      | some p =>
        obtain ⟨g2, bq⟩ := p
        simp only [hp] at hr
        split at hr
        · simp only [Option.some.injEq] at hr
          subst hr
          exact selectionInv_step_of_same s _ rfl rfl rfl hinv
        · cases hr
    | pinsFail g msg =>
      simp only [rawStep] at hr
      cases hp : s.pinsReq with
      | none => simp [hp] at hr
      | some p =>
        obtain ⟨g2, bq⟩ := p
        simp only [hp] at hr
        split at hr
        · simp only [Option.some.injEq] at hr
          subst hr
          exact selectionInv_step_of_same s _ rfl rfl rfl hinv
        · cases hr
    | selectComplexStart cid fm =>
      simp only [rawStep, Option.some.injEq] at hr
      subst hr
      exact selectionInv_step_of_same s _ rfl rfl rfl hinv
    | selectComplexResolve cid fm =>
      simp only [rawStep] at hr
      split at hr
      · split at hr <;> split at hr <;>
          (simp only [Option.some.injEq] at hr; subst hr;
           apply selectionInv_step_of) <;>
          first
            | (intro pid hp hids
               rw [(triggerPortfolio_sel _).1] at hp
               rw [(triggerPortfolio_sel _).2.1] at hids ⊢
               exact isSome_of_map_eq _ _ hids (hinv.1 pid hp).2)
            | (intro hu
               rw [(triggerPortfolio_sel _).2.2.1]
               rfl)
      · cases hr
    | selectComplexFail cid fm msg =>
      simp only [rawStep] at hr
      split at hr
      · simp only [Option.some.injEq] at hr
        subst hr
        exact selectionInv_step_of_same s _ rfl rfl rfl hinv
      · cases hr
    | unitTypeSelect u =>
      simp only [rawStep] at hr
      cases hc : s.selectedComplex with
      | none => simp [hc] at hr
      | some d =>
        simp only [hc] at hr
        split at hr
        · split at hr
          · cases hr
          · simp only [Option.some.injEq] at hr
            subst hr
            apply selectionInv_step_of
            · intro pid hp _
              rw [(triggerPortfolio_sel _).2.1]
              rfl
            · intro _
              rw [(triggerPortfolio_sel _).2.2.1]
              rfl
        · cases hr
    | setFilters f =>
      simp only [rawStep, Option.some.injEq] at hr
      subst hr
      exact selectionInv_step_of_same s _ (triggerPortfolio_sel _).1
        (triggerPortfolio_sel _).2.1 (triggerPortfolio_sel _).2.2.1 hinv
    | portfolioResolve g =>
      simp only [rawStep] at hr
      cases hp : s.portfolioReq with
      | none => simp [hp] at hr
      | some p =>
        obtain ⟨g2, c, uid, fq⟩ := p
        simp only [hp] at hr
        split at hr
        · simp only [Option.some.injEq] at hr
          subst hr
          apply selectionInv_step_of
          · intro pid hp2 _
            exact (hinv.1 pid hp2).2
          · exact hinv.2
        · cases hr
    | portfolioFail g msg =>
      simp only [rawStep] at hr
      cases hp : s.portfolioReq with
      | none => simp [hp] at hr
      | some p =>
        obtain ⟨g2, c, uid, fq⟩ := p
        simp only [hp] at hr
        split at hr
        · simp only [Option.some.injEq] at hr
          subst hr
          exact selectionInv_step_of_same s _ rfl rfl rfl hinv
        · cases hr
    | pinSelect pid =>
      simp only [rawStep] at hr
      split at hr
      · rename_i hguard
        have hunit : s.selectedUnitType.isSome = true :=
          (Bool.and_eq_true _ _ |>.mp hguard).1
        split at hr <;>
          (simp only [Option.some.injEq] at hr; subst hr;
           apply selectionInv_step_of)
        · intro _ _ _
          exact hunit
        · intro hu
          exact hinv.2 hu
        · intro _ _ _
          rw [(triggerPortfolio_sel _).2.1]
          exact hunit
        · intro hu
          rw [(triggerPortfolio_sel _).2.1] at hu
          rw [(triggerPortfolio_sel _).2.2.1]
          exact hinv.2 hu
      · cases hr
    | highlightTimerFire =>
      simp only [rawStep] at hr
      split at hr
      · simp only [Option.some.injEq] at hr
        subst hr
        exact selectionInv_step_of_same s _ (triggerPortfolio_sel _).1
          (triggerPortfolio_sel _).2.1 (triggerPortfolio_sel _).2.2.1 hinv
      · cases hr
    | nearbyStart lat lng =>
      simp only [rawStep, Option.some.injEq] at hr
      subst hr
      exact selectionInv_step_of_same s _ rfl rfl rfl hinv
    | nearbyResolve lat lng radius =>
      simp only [rawStep] at hr
      split at hr
      · split at hr <;>
          (simp only [Option.some.injEq] at hr; subst hr)
        · exact selectionInv_step_of_same s _ (triggerPins_sel _).1
            (triggerPins_sel _).2.1 (triggerPins_sel _).2.2.1 hinv
        · exact selectionInv_step_of_same s _ rfl rfl rfl hinv
      · cases hr
    | nearbyFail lat lng radius msg =>
      simp only [rawStep] at hr
      split at hr
      · simp only [Option.some.injEq] at hr
        subst hr
        exact selectionInv_step_of_same s _ rfl rfl rfl hinv
      · cases hr
    | backToBounds b =>
      simp only [rawStep, Option.some.injEq] at hr
      subst hr
      exact selectionInv_step_of_same s _ (triggerPins_sel _).1
        (triggerPins_sel _).2.1 (triggerPins_sel _).2.2.1 hinv

theorem selectionInv_run (env : ApiEnv) (evs : List AppEvent) :
    ∀ s : AppState, SelectionInv s → SelectionInv (runApp env s evs) := by
  induction evs with
  | nil => intro s h; exact h
  | cons e rest ih =>
    intro s h
    exact ih (step env s e) (selectionInv_step env s e h)

theorem selectionInv_mkInit : SelectionInv mkInit := by
  constructor
  · intro pid hp
    simp [mkInit] at hp
  · intro h
    simp [mkInit] at h

/-- If a commit leaves `selectedUnitType` unchanged but the committed
portfolio list no longer contains the pinned portfolio, the
reconciliation effect clears the pinned selection. -/
theorem effects_pinned_of_missing (p r : AppState) (qid : ℕ)
    (hu : r.selectedUnitType = p.selectedUnitType)
    (hpin : r.selectedPinnedPortfolioId = some qid)
    (hmiss : r.portfolios.any (fun cc => cc.portfolio_id == qid) = false) :
    (runAfterRenderEffects p r).selectedPinnedPortfolioId = none := by
  unfold runAfterRenderEffects applyUnitChangeCleanup
  rw [hu, if_pos rfl]
  unfold applyPinnedCleanup
  simp only [hpin]
  simp [hmiss]

/-- The event trace of the C3 scenario: select complex 1 (unit 11,
list `[demoCard 5]`, pin 5 chosen), then select complex 2 (unit 22);
while the refreshed list for complex 2 is still in flight, the stale
pin 5 — still rendered from the old list — is clicked again. -/
def c3trace : List AppEvent :=
  [AppEvent.selectComplexStart 1 false, AppEvent.selectComplexResolve 1 false,
   AppEvent.portfolioResolve 1, AppEvent.pinSelect 5,
   AppEvent.selectComplexStart 2 false, AppEvent.selectComplexResolve 2 false,
   AppEvent.pinSelect 5]

/-- The state reached by `c3trace`. -/
def c3state : AppState :=
  runApp demoEnv mkInit c3trace

/-- Counterexample to C3 as stated: in the reachable state `c3state`
the pinned portfolio 5 is in the displayed list and complex 2 / unit
type 22 are selected, but portfolio 5 does not belong to the selected
unit type's portfolio list (the list the collaborator returns for
complex 2 / unit 22 / the current filters is `[demoCard 9]`) — the
chain is not mutually consistent. -/
theorem c3_counterexample :
    c3state.selectedPinnedPortfolioId = some 5 ∧
    c3state.selectedComplex = some (demoEnv.complexDetail 2) ∧
    c3state.selectedUnitType = some (demoUnit 22) ∧
    c3state.portfolios.map (fun c => c.portfolio_id) = [5] ∧
    (demoEnv.portfolios 2 22 c3state.filters).items.map
      (fun c => c.portfolio_id) = [9] ∧
    5 ∉ (demoEnv.portfolios 2 22 c3state.filters).items.map
      (fun c => c.portfolio_id) := by
  decide

/-- C3, amended: in every reachable state, a non-null
`selectedPinnedPortfolioId` implies that the *currently displayed*
portfolio list contains a card with that id, that a unit type is
selected and that a complex is selected; and a pinned portfolio missing
from a freshly committed list is cleared at that commit.  (Full mutual
consistency with the selected unit type's own list can be violated
while a refresh for a new selection is still in flight, see the
counterexample.) -/
theorem c3_selection_containment_amended (env : ApiEnv)
    (evs : List AppEvent) (pid : ℕ)
    (h : (runApp env mkInit evs).selectedPinnedPortfolioId = some pid) :
    (runApp env mkInit evs).portfolios.any
      (fun c => c.portfolio_id == pid) = true ∧
    (runApp env mkInit evs).selectedUnitType.isSome = true ∧
    (runApp env mkInit evs).selectedComplex.isSome = true ∧
    (∀ (s : AppState) (g c uid qid : ℕ) (fq : PortfolioFilters),
      s.portfolioReq = some (g, c, uid, fq) →
      s.selectedPinnedPortfolioId = some qid →
      (env.portfolios c uid fq).items.any
        (fun cc => cc.portfolio_id == qid) = false →
      (step env s (AppEvent.portfolioResolve g)).selectedPinnedPortfolioId =
        none) := by
  have hinv := selectionInv_run env evs mkInit selectionInv_mkInit
  have hone := hinv.1 pid h
  refine ⟨hone.1, hone.2, hinv.2 hone.2, ?_⟩
  intro s g c uid qid fq hreq hpin hmiss
  have hstep : step env s (AppEvent.portfolioResolve g) =
      runAfterRenderEffects s
        { s with portfolios := (env.portfolios c uid fq).items,
                 status := "조회 완료: " ++
                   toString (env.portfolios c uid fq).total ++ "건",
                 loadingPortfolios := false, portfolioReq := none } := by
    simp [step, rawStep, hreq]
  rw [hstep]
  exact effects_pinned_of_missing s _ qid rfl hpin hmiss

/-- Witness for the amended C3 at the reachable state of `c3trace`. -/
theorem c3_witness :
    (runApp demoEnv mkInit c3trace).portfolios.any
      (fun c => c.portfolio_id == 5) = true ∧
    (runApp demoEnv mkInit c3trace).selectedUnitType.isSome = true ∧
    (runApp demoEnv mkInit c3trace).selectedComplex.isSome = true ∧
    (∀ (s : AppState) (g c uid qid : ℕ) (fq : PortfolioFilters),
      s.portfolioReq = some (g, c, uid, fq) →
      s.selectedPinnedPortfolioId = some qid →
      (demoEnv.portfolios c uid fq).items.any
        (fun cc => cc.portfolio_id == qid) = false →
      (step demoEnv s
          (AppEvent.portfolioResolve g)).selectedPinnedPortfolioId = none) :=
  c3_selection_containment_amended demoEnv c3trace 5 (by decide)

/-! ## Error handling (claim C9) -/

/-- `AdminFloorPlanPin` from `types.ts`. -/
structure AdminFloorPlanPin where
  pin_id : ℕ
  portfolio_id : ℕ
  x_ratio : ℚ
  y_ratio : ℚ
  title : Option String
  sort_order : ℕ
  before_image_urls : List String
  after_image_urls : List String
deriving DecidableEq

/-- The drag-relevant state of `AdminApp.tsx` (the pin creation/edit
form is omitted: the drag-persist path reads and writes only `pins`,
`draggingPinId`, `selectedPortfolioId` and the status message). -/
structure AdminState where
  pins : List AdminFloorPlanPin
  draggingPinId : Option ℕ
  editingPinId : Option ℕ
  selectedPortfolioId : Option ℕ
  status : String
deriving DecidableEq

/-- `onEditorMouseMove` from `AdminApp.tsx`: while dragging, the moving
pin's local position is updated optimistically from the pointer
position relative to the editor's bounding rectangle. -/
def onEditorMouseMove (s : AdminState) (clientX clientY : ℚ) (rect : Rect) :
    AdminState :=
  match s.draggingPinId with
  | none => s
  | some did =>
      let xy := ratioFromClient clientX clientY rect
      { s with pins := s.pins.map (fun p =>
          if p.pin_id == did then
            { p with x_ratio := xy.1, y_ratio := xy.2 }
          else p) }

/-- The synchronous part of `onDragEnd` from `AdminApp.tsx`: leave the
dragging state and look up the pin whose (optimistic) final position is
to be persisted; `none` means nothing is persisted. -/
def onDragEndIssue (s : AdminState) : AdminState × Option AdminFloorPlanPin :=
  match s.draggingPinId, s.selectedPortfolioId with
  | some did, some _ =>
      ({ s with draggingPinId := none },
        s.pins.find? (fun p => p.pin_id == did))
  | _, _ => (s, none)

/-- The catch branch of `onDragEnd` from `AdminApp.tsx`: the failure is
surfaced as the status message and nothing else changes — in
particular the optimistic local pin position is not rolled back. -/
def onDragEndFail (s : AdminState) (msg : String) : AdminState :=
  { s with status := msg }

/-- C9: a failed map-pins fetch and a failed portfolio fetch change
neither the clusters, the complexes nor the portfolio list (whatever
generation fails — a live one surfaces its message in the status, a
superseded one is discarded entirely); and a failed pin-position
persist after a drag surfaces its message and keeps the optimistic
local pin position (no rollback). -/
theorem c9_error_preserves_data (env : ApiEnv) (s : AppState)
    (g g2 : ℕ) (b : BoundsQuery) (c uid : ℕ) (fq : PortfolioFilters)
    (msg msg2 msg3 : String) (a : AdminState) (did : ℕ)
    (clientX clientY : ℚ) (rect : Rect)
    (hreq : s.pinsReq = some (g, b))
    (hreq2 : s.portfolioReq = some (g2, c, uid, fq))
    (hdrag : a.draggingPinId = some did)
    (hsel : a.selectedPortfolioId.isSome = true) :
    (∀ (gq : ℕ) (m : String),
      (step env s (AppEvent.pinsFail gq m)).clusters = s.clusters ∧
      (step env s (AppEvent.pinsFail gq m)).complexes = s.complexes ∧
      (step env s (AppEvent.pinsFail gq m)).portfolios = s.portfolios ∧
      (step env s (AppEvent.portfolioFail gq m)).clusters = s.clusters ∧
      (step env s (AppEvent.portfolioFail gq m)).complexes = s.complexes ∧
      (step env s (AppEvent.portfolioFail gq m)).portfolios = s.portfolios) ∧
    (step env s (AppEvent.pinsFail g msg)).status = msg ∧
    (step env s (AppEvent.portfolioFail g2 msg2)).status = msg2 ∧
    (onDragEndFail (onDragEndIssue
        (onEditorMouseMove a clientX clientY rect)).1 msg3).pins =
      a.pins.map (fun p =>
        if p.pin_id == did then
          { p with x_ratio := (ratioFromClient clientX clientY rect).1,
                   y_ratio := (ratioFromClient clientX clientY rect).2 }
        else p) ∧
    (onDragEndFail (onDragEndIssue
        (onEditorMouseMove a clientX clientY rect)).1 msg3).status = msg3 := by
  obtain ⟨spid, hspid⟩ := Option.isSome_iff_exists.mp hsel
  refine ⟨?_, ?_, ?_, ?_, ?_⟩
  · intro gq m
    by_cases hgg : g = gq <;> by_cases hgg2 : g2 = gq <;>
      refine ⟨?_, ?_, ?_, ?_, ?_, ?_⟩ <;>
        simp [step, rawStep, hreq, hreq2, hgg, hgg2, effects_clusters,
          effects_complexes, effects_portfolios]
  · simp only [step, rawStep, hreq]
    simp [effects_status]
  · simp only [step, rawStep, hreq2]
    simp [effects_status]
  · simp only [onEditorMouseMove, hdrag, onDragEndIssue, hspid, onDragEndFail]
  · simp only [onEditorMouseMove, hdrag, onDragEndIssue, hspid, onDragEndFail]

/-- The admin editor state of the C9 witness: one pin, being dragged,
with a portfolio selected. -/
def c9admin : AdminState :=
  { pins := [ { pin_id := 3, portfolio_id := 7, x_ratio := 10, y_ratio := 20,
                title := none, sort_order := 1, before_image_urls := [],
                after_image_urls := [] } ],
    draggingPinId := some 3, editingPinId := some 3,
    selectedPortfolioId := some 7, status := "" }

/-- Witness for C9 at `c1state` (one live fetch in each pipeline) and
at a concrete drag. -/
theorem c9_witness :
    (∀ (gq : ℕ) (m : String),
      (step demoEnv c1state (AppEvent.pinsFail gq m)).clusters =
        c1state.clusters ∧
      (step demoEnv c1state (AppEvent.pinsFail gq m)).complexes =
        c1state.complexes ∧
      (step demoEnv c1state (AppEvent.pinsFail gq m)).portfolios =
        c1state.portfolios ∧
      (step demoEnv c1state (AppEvent.portfolioFail gq m)).clusters =
        c1state.clusters ∧
      (step demoEnv c1state (AppEvent.portfolioFail gq m)).complexes =
        c1state.complexes ∧
      (step demoEnv c1state (AppEvent.portfolioFail gq m)).portfolios =
        c1state.portfolios) ∧
    (step demoEnv c1state (AppEvent.pinsFail 1 "map error")).status =
      "map error" ∧
    (step demoEnv c1state (AppEvent.portfolioFail 2 "list error")).status =
      "list error" ∧
    (onDragEndFail (onDragEndIssue
        (onEditorMouseMove c9admin 50 25
          { left := 0, top := 0, width := 200, height := 100 })).1
        "persist error").pins =
      c9admin.pins.map (fun p =>
        if p.pin_id == 3 then
          { p with
              x_ratio := (ratioFromClient 50 25
                { left := 0, top := 0, width := 200, height := 100 }).1,
              y_ratio := (ratioFromClient 50 25
                { left := 0, top := 0, width := 200, height := 100 }).2 }
        else p) ∧
    (onDragEndFail (onDragEndIssue
        (onEditorMouseMove c9admin 50 25
          { left := 0, top := 0, width := 200, height := 100 })).1
        "persist error").status = "persist error" :=
  c9_error_preserves_data demoEnv c1state 1 2 demoBounds1 1 11 DEFAULT_FILTERS
    "map error" "list error" "persist error" c9admin 3 50 25
    { left := 0, top := 0, width := 200, height := 100 }
    (by decide) (by decide) (by decide) (by decide)

end HomeTypeMap
